import Mathlib

/-!
Verification development for the ProgressPad task tracker.

This file gives a shallow embedding, in Lean, of the computational kernel of
the application (src/app.py, src/models.py):

* the flexible date normalizer `parse_date_flexible`,
* the task serialization `to_dict` with its derived due-date flags,
* the two action-plan update endpoints,
* the settings store (`set_setting`, `save_settings`, `load_settings`),
* the analytics aggregator,

and proves or refutes the specified properties of these components.

Conventions used throughout the embedding:

* Python `date` values are modelled by the `Date` structure (year/month/day as
  naturals).  Python orders and subtracts dates by their proleptic-Gregorian
  ordinal (`date.toordinal`, documented behaviour of the `datetime` module),
  which the embedding mirrors with `toOrdinal`.
* Python `None` is modelled by `Option.none` / the `tnull` and `jnull`
  constructors; exceptions that a function can raise and that its caller
  catches are modelled by `Option`-valued results.
* Python `str.strip()` is modelled by `pyStrip` over the ASCII whitespace
  characters (the only whitespace that occurs in this application's data).
-/

/-! ## Small string helpers -/

/-- Decimal digit characters of a natural number, most significant first
(the rendering Python's `str` gives for a non-negative `int`). -/
def pyNatStr (n : Nat) : String := ⟨Nat.toDigits 10 n⟩

/-- Rendering Python's `str` gives for an `int`. -/
def pyIntStr (n : Int) : String :=
  if n < 0 then "-" ++ pyNatStr n.natAbs else pyNatStr n.natAbs

/-- Left-pad a string with `'0'` to width `w` (as in `date.isoformat`). -/
def padZero (w : Nat) (s : String) : String :=
  ⟨List.replicate (w - s.length) '0' ++ s.data⟩

/-! ## Calendar dates

Python `datetime.date` values: a year/month/day triple, valid when the year is
in `[1, 9999]` (`MINYEAR`/`MAXYEAR`) and the day fits the month. -/

structure Date where
  year : Nat
  month : Nat
  day : Nat
deriving DecidableEq

/-- Gregorian leap-year test, as in the `datetime` module. -/
def isLeap (y : Nat) : Bool := decide (y % 4 = 0 ∧ (¬ y % 100 = 0 ∨ y % 400 = 0))

/-- Number of days of month `m` of year `y`. -/
def daysInMonth (y m : Nat) : Nat :=
  match m with
  | 2 => if isLeap y then 29 else 28
  | 4 => 30
  | 6 => 30
  | 9 => 30
  | 11 => 30
  | _ => 31

/-- Validity predicate of a `datetime.date` triple. -/
def validDate (d : Date) : Bool :=
  decide (1 ≤ d.year ∧ d.year ≤ 9999 ∧ 1 ≤ d.month ∧ d.month ≤ 12 ∧
          1 ≤ d.day ∧ d.day ≤ daysInMonth d.year d.month)

/-- Smart constructor: the `datetime.date` constructor, raising (= `none`) on
an invalid triple. -/
def mkDate (y m d : Nat) : Option Date :=
  if validDate ⟨y, m, d⟩ then some ⟨y, m, d⟩ else none

/-- Number of leap years strictly before year `y` (for `y ≥ 1`). -/
def leapsBefore (y : Nat) : Nat := (y - 1) / 4 - (y - 1) / 100 + (y - 1) / 400

/-- Days of year `y` that precede month `m` (the cumulative month lengths:
0, 31, 59 + leap, ...). -/
def daysBeforeMonth (y : Nat) : Nat → Nat
  | 0 => 0
  | m + 1 => daysBeforeMonth y m + (if m = 0 then 0 else daysInMonth y m)

/-- Python's `date.toordinal`: day number in the proleptic Gregorian calendar,
with `0001-01-01` being day 1. -/
def toOrdinal (d : Date) : Nat :=
  365 * (d.year - 1) + leapsBefore d.year + daysBeforeMonth d.year d.month + d.day

/-- Largest ordinal of a representable date (`date.max.toordinal()`). -/
def maxOrdinal : Nat := toOrdinal ⟨9999, 12, 31⟩

/-- Locate the month a (1-based) day-of-year falls in; fuel counts the months
still to try.  Every produced date goes through `mkDate`, so it is valid. -/
def monthScan (y : Nat) : Nat → Nat → Nat → Option Date
  | 0, _, _ => none
  | fuel + 1, m, rem =>
    if rem ≤ daysInMonth y m then mkDate y m rem
    else monthScan y fuel (m + 1) (rem - daysInMonth y m)

/-- Python's `date.fromordinal` (CPython `_ord2ymd`): out-of-range ordinals
raise (= `none`); in range, strip 400/100/4/1-year cycles, then locate the
month.  The `n1 = 4 ∨ n100 = 4` case is the last day of a leap year. -/
def fromOrdinal (z : Int) : Option Date :=
  if z < 1 ∨ (maxOrdinal : Int) < z then none
  else
    let n : Nat := (z - 1).toNat
    let n400 := n / 146097
    let r1 := n % 146097
    let n100 := r1 / 36524
    let r2 := r1 % 36524
    let n4 := r2 / 1461
    let r3 := r2 % 1461
    let n1 := r3 / 365
    let r4 := r3 % 365
    let year := 400 * n400 + 100 * n100 + 4 * n4 + n1 + 1
    if n1 = 4 ∨ n100 = 4 then mkDate (year - 1) 12 31
    else monthScan year 12 1 (r4 + 1)

/-- Python's `date.isoformat`: zero-padded `YYYY-MM-DD`. -/
def isoDate (d : Date) : String :=
  padZero 4 (pyNatStr d.year) ++ "-" ++ padZero 2 (pyNatStr d.month) ++ "-" ++
    padZero 2 (pyNatStr d.day)

/-! ## strptime on the five formats used by `parse_date_flexible`

Each of the five formats is three numeric fields separated twice by the same
literal separator.  CPython's `strptime` matches `%Y` as exactly four digits
and `%m`/`%d` as one or two digits (greedy, with value constraints folded into
the regular expression), then validates the triple through the `date`
constructor.  Because the character after each numeric field is a non-digit
literal (or the end of the string), a field must consume the entire maximal
digit run it starts at; `parseField` implements exactly that, and calendar
validation happens in `mkDate` — extensionally the same accept/reject
behaviour as the CPython regexes for these five formats. -/

/-- Number denoted by a list of decimal digit characters. -/
def natOfDigits (cs : List Char) : Nat :=
  cs.foldl (fun acc c => 10 * acc + (c.toNat - 48)) 0

/-- Match one numeric field: the maximal digit run at the head of `cs`, which
must have between `lo` and `hi` digits. -/
def parseField (lo hi : Nat) (cs : List Char) : Option (Nat × List Char) :=
  if lo ≤ (cs.takeWhile Char.isDigit).length ∧ (cs.takeWhile Char.isDigit).length ≤ hi then
    some (natOfDigits (cs.takeWhile Char.isDigit), cs.dropWhile Char.isDigit)
  else none

/-- One of the five textual formats: widths of the first and third fields
(the middle field is always `%m` or `%d`, one or two digits), the literal
separator, and the mapping of the three fields to a year/month/day triple. -/
structure Fmt where
  lo1 : Nat
  hi1 : Nat
  lo3 : Nat
  hi3 : Nat
  sep : Char
  build : Nat → Nat → Nat → Nat × Nat × Nat

/-- Full-match a string against `field sep field sep field`. -/
def parseThree (f : Fmt) (cs : List Char) : Option (Nat × Nat × Nat) :=
  match parseField f.lo1 f.hi1 cs with
  | none => none
  | some (a, r1) =>
    match r1 with
    | [] => none
    | c1 :: r1' =>
      if c1 = f.sep then
        match parseField 1 2 r1' with
        | none => none
        | some (b, r2) =>
          match r2 with
          | [] => none
          | c2 :: r2' =>
            if c2 = f.sep then
              match parseField f.lo3 f.hi3 r2' with
              | none => none
              | some (c, r3) => if r3 = [] then some (a, b, c) else none
            else none
      else none

/-- `datetime.strptime(s, fmt).date()`, `none` on `ValueError`. -/
def strptimeF (f : Fmt) (s : String) : Option Date :=
  match parseThree f s.data with
  | none => none
  | some (a, b, c) =>
    match f.build a b c with
    | (y, m, d) => mkDate y m d

/-- `'%Y-%m-%d'` -/
def fmtYMDdash : Fmt := ⟨4, 4, 1, 2, '-', fun a b c => (a, b, c)⟩
/-- `'%d/%m/%Y'` -/
def fmtDMYslash : Fmt := ⟨1, 2, 4, 4, '/', fun a b c => (c, b, a)⟩
/-- `'%m/%d/%Y'` -/
def fmtMDYslash : Fmt := ⟨1, 2, 4, 4, '/', fun a b c => (c, a, b)⟩
/-- `'%d-%m-%Y'` -/
def fmtDMYdash : Fmt := ⟨1, 2, 4, 4, '-', fun a b c => (c, b, a)⟩
/-- `'%Y/%m/%d'` -/
def fmtYMDslash : Fmt := ⟨4, 4, 1, 2, '/', fun a b c => (a, b, c)⟩

/-- The `for fmt in formats` loop of `parse_date_flexible`: first format that
parses wins. -/
def tryFormats (s : String) : Option Date :=
  strptimeF fmtYMDdash s <|> strptimeF fmtDMYslash s <|> strptimeF fmtMDYslash s <|>
    strptimeF fmtDMYdash s <|> strptimeF fmtYMDslash s

/-! ## parse_date_flexible (src/app.py lines 76-107) -/

/-- The inputs `parse_date_flexible` receives: `None`, a string, or a number
(Python `bool` is an `int` subclass, so it reaches the numeric branch). -/
inductive PyInput where
  | pnone
  | pstr (s : String)
  | pint (n : Int)
  | pbool (b : Bool)
deriving DecidableEq

/-- Python truthiness of the input (the `if not date_str` guard). -/
def pyFalsy : PyInput → Bool
  | .pnone => true
  | .pstr s => s = ""
  | .pint n => n = 0
  | .pbool b => !b

/-- Python `str(date_str)`. -/
def pyStr : PyInput → String
  | .pnone => "None"
  | .pstr s => s
  | .pint n => pyIntStr n
  | .pbool b => if b then "True" else "False"

/-- Ordinal of the Excel epoch used by the code, `datetime(1900, 1, 1)`. -/
def excelEpochOrdinal : Nat := toOrdinal ⟨1900, 1, 1⟩

/-- `parse_date_flexible` (src/app.py 76-107): falsy input short-circuits to
`None`; otherwise the five formats are tried in order on `str(date_str)`;
otherwise a numeric input is read as an Excel serial,
`datetime(1900, 1, 1) + timedelta(days = int(n) - 2)`, with the bare `except`
turning an out-of-range result (`OverflowError`) into `None`. -/
def parse_date_flexible (v : PyInput) : Option Date :=
  if pyFalsy v then none
  else
    match tryFormats (pyStr v) with
    | some d => some d
    | none =>
      match v with
      | .pint n => fromOrdinal ((excelEpochOrdinal : Int) + (n - 2))
      | .pbool b => fromOrdinal ((excelEpochOrdinal : Int) + ((if b then 1 else 0) - 2))
      | _ => none


/-! ## Structural facts about the format parser -/

theorem parseField_some {lo hi : Nat} {cs : List Char} {a : Nat} {r : List Char}
    (h : parseField lo hi cs = some (a, r)) :
    ∃ run, cs = run ++ r ∧ ∀ c ∈ run, c.isDigit = true := by
  unfold parseField at h
  split at h
  · simp only [Option.some.injEq, Prod.mk.injEq] at h
    obtain ⟨-, h2⟩ := h
    refine ⟨cs.takeWhile Char.isDigit, ?_, fun c hc => List.mem_takeWhile_imp hc⟩
    rw [← h2]
    exact (List.takeWhile_append_dropWhile _ _).symm
  · exact absurd h (by simp)

theorem parseThree_chars {f : Fmt} {cs : List Char} {v : Nat × Nat × Nat}
    (h : parseThree f cs = some v) :
    f.sep ∈ cs ∧ ∀ c ∈ cs, c.isDigit = true ∨ c = f.sep := by
  unfold parseThree at h
  split at h
  · simp at h
  next a r1 heq1 =>
    split at h
    · simp at h
    next c1 r1' =>
      split at h
      case isFalse => simp at h
      case isTrue hc1 =>
        split at h
        · simp at h
        next b r2 heq2 =>
          split at h
          · simp at h
          next c2 r2' =>
            split at h
            case isFalse => simp at h
            case isTrue hc2 =>
              split at h
              · simp at h
              next c r3 heq3 =>
                split at h
                case isFalse => simp at h
                case isTrue hr3 =>
                  subst hr3
                  obtain ⟨run1, hcs, hd1⟩ := parseField_some heq1
                  obtain ⟨run2, hr1, hd2⟩ := parseField_some heq2
                  obtain ⟨run3, hr2, hd3⟩ := parseField_some heq3
                  rw [List.append_nil] at hr2
                  subst hc1 hc2 hr2 hr1 hcs
                  constructor
                  · exact List.mem_append_right _ (List.mem_cons_self _ _)
                  · intro c hc
                    simp only [List.mem_append, List.mem_cons] at hc
                    rcases hc with hc | rfl | hc | rfl | hc
                    · exact Or.inl (hd1 c hc)
                    · exact Or.inr rfl
                    · exact Or.inl (hd2 c hc)
                    · exact Or.inr rfl
                    · exact Or.inl (hd3 c hc)

theorem strptimeF_chars {f : Fmt} {s : String} {d : Date}
    (h : strptimeF f s = some d) :
    f.sep ∈ s.data ∧ ∀ c ∈ s.data, c.isDigit = true ∨ c = f.sep := by
  unfold strptimeF at h
  split at h
  · simp at h
  next v heq => exact parseThree_chars heq

/-- A string that fully matches a slash-separated format contains no dash, so
`'%Y-%m-%d'` (tried first) necessarily fails on it. -/
theorem ymd_dash_fails_of_dmy_slash {s : String} {d : Date}
    (h : strptimeF fmtDMYslash s = some d) :
    strptimeF fmtYMDdash s = none := by
  obtain ⟨-, hall⟩ := strptimeF_chars h
  cases h2 : strptimeF fmtYMDdash s with
  | none => rfl
  | some d' =>
    exfalso
    obtain ⟨hmem, -⟩ := strptimeF_chars h2
    rcases hall _ hmem with hdig | hsep
    · exact absurd hdig (by decide)
    · exact absurd hsep (by decide)

theorem parseThree_nil (f : Fmt) : parseThree f [] = none := by
  unfold parseThree
  cases h : parseField f.lo1 f.hi1 [] with
  | none => rfl
  | some p =>
    obtain ⟨a, r⟩ := p
    obtain ⟨run, hr, -⟩ := parseField_some h
    obtain ⟨-, hr2⟩ := List.append_eq_nil.mp hr.symm
    subst hr2
    rfl

theorem strptimeF_empty (f : Fmt) : strptimeF f "" = none := by
  unfold strptimeF
  rw [show ("" : String).data = [] from rfl, parseThree_nil]

/-! ## Every date the normalizer produces is a valid calendar date -/

theorem mkDate_valid {y m d : Nat} {dt : Date} (h : mkDate y m d = some dt) :
    validDate dt = true := by
  unfold mkDate at h
  split at h
  · cases h
    assumption
  · exact absurd h (by simp)

theorem monthScan_valid {y : Nat} :
    ∀ {fuel m rem : Nat} {dt : Date}, monthScan y fuel m rem = some dt →
      validDate dt = true := by
  intro fuel
  induction fuel with
  | zero => intro m rem dt h; exact absurd h (by simp [monthScan])
  | succ k ih =>
    intro m rem dt h
    unfold monthScan at h
    split at h
    · exact mkDate_valid h
    · exact ih h

theorem fromOrdinal_valid {z : Int} {dt : Date} (h : fromOrdinal z = some dt) :
    validDate dt = true := by
  unfold fromOrdinal at h
  split at h
  · exact absurd h (by simp)
  · dsimp only at h
    split at h
    · exact mkDate_valid h
    · exact monthScan_valid h

theorem strptimeF_valid {f : Fmt} {s : String} {dt : Date}
    (h : strptimeF f s = some dt) : validDate dt = true := by
  unfold strptimeF at h
  split at h
  · exact absurd h (by simp)
  · exact mkDate_valid h

theorem tryFormats_valid {s : String} {dt : Date} (h : tryFormats s = some dt) :
    validDate dt = true := by
  unfold tryFormats at h
  rcases h1 : strptimeF fmtYMDdash s with - | d1
  · rw [h1, Option.none_orElse] at h
    rcases h2 : strptimeF fmtDMYslash s with - | d2
    · rw [h2, Option.none_orElse] at h
      rcases h3 : strptimeF fmtMDYslash s with - | d3
      · rw [h3, Option.none_orElse] at h
        rcases h4 : strptimeF fmtDMYdash s with - | d4
        · rw [h4, Option.none_orElse] at h
          exact strptimeF_valid h
        · rw [h4, Option.some_orElse] at h
          cases h
          exact strptimeF_valid h4
      · rw [h3, Option.some_orElse] at h
        cases h
        exact strptimeF_valid h3
    · rw [h2, Option.some_orElse] at h
      cases h
      exact strptimeF_valid h2
  · rw [h1, Option.some_orElse] at h
    cases h
    exact strptimeF_valid h1

/-! ## Claim C2: format precedence of the date normalizer -/

/-- C2.  `parse_date_flexible` tries the five textual patterns in the fixed
source order: the first pattern, `%Y-%m-%d`, wins outright whenever it
parses, and for any string that parses both as `%d/%m/%Y` and as `%m/%d/%Y`
the day-first interpretation (listed earlier) is returned.  In particular,
`"01/02/2025"` normalizes to February 1, 2025 (see the witness). -/
theorem c2_format_order :
    (∀ s d, strptimeF fmtYMDdash s = some d → parse_date_flexible (.pstr s) = some d) ∧
    (∀ s d1 d2, strptimeF fmtDMYslash s = some d1 → strptimeF fmtMDYslash s = some d2 →
      parse_date_flexible (.pstr s) = some d1) := by
  constructor
  · intro s d h
    have hs : ¬ s = "" := by
      intro he
      subst he
      rw [strptimeF_empty] at h
      cases h
    unfold parse_date_flexible
    simp only [pyFalsy, pyStr, decide_eq_true_eq, if_neg hs]
    rw [tryFormats, h, Option.some_orElse]
  · intro s d1 d2 h1 h2
    have hs : ¬ s = "" := by
      intro he
      subst he
      rw [strptimeF_empty] at h1
      cases h1
    have hy : strptimeF fmtYMDdash s = none := ymd_dash_fails_of_dmy_slash h1
    unfold parse_date_flexible
    simp only [pyFalsy, pyStr, decide_eq_true_eq, if_neg hs]
    rw [tryFormats, hy, Option.none_orElse, h1, Option.some_orElse]

/-- Witness for C2 at the claim's own example: `"01/02/2025"` parses under
both slash formats and the day-first reading (February 1, 2025) wins. -/
theorem c2_format_order_witness :
    parse_date_flexible (.pstr "01/02/2025") = some ⟨2025, 2, 1⟩ :=
  c2_format_order.2 "01/02/2025" ⟨2025, 2, 1⟩ ⟨2025, 1, 2⟩ (by decide) (by decide)

/-! ## Claim C4: the Excel-serial fallback -/

/-- C4 counterexample.  The claim says every numeric input matching no textual
pattern is read as the serial date `1900-01-01 + (n - 2)` days; at `n = 0`
the serial mapping gives 1899-12-30, yet the code returns `None`, because the
`if not date_str` truthiness guard already fires on the number `0`. -/
theorem c4_counterexample :
    parse_date_flexible (.pint 0) = none ∧
    tryFormats (pyStr (.pint 0)) = none ∧
    fromOrdinal ((excelEpochOrdinal : Int) + (0 - 2)) = some ⟨1899, 12, 30⟩ := by
  refine ⟨rfl, by decide, by decide⟩

/-- C4 (amended).  For every *nonzero* numeric input `n` that matches none of
the textual patterns, the normalizer returns exactly
`date(1900, 1, 1) + timedelta(days = n - 2)`: the serial date when that sum is
a representable date (years 1–9999), and the no-date result when the addition
overflows.  (`n = 0` is excluded: it is falsy in Python and short-circuits to
the no-date result, see `c4_counterexample`.) -/
theorem c4_serial_amended (n : Int) (hn : ¬ n = 0)
    (hfmt : tryFormats (pyIntStr n) = none) :
    parse_date_flexible (.pint n) = fromOrdinal ((excelEpochOrdinal : Int) + (n - 2)) := by
  unfold parse_date_flexible
  simp only [pyFalsy, pyStr, decide_eq_true_eq, if_neg hn]
  rw [hfmt]

/-- Witness for C4 at the spec's example input `44000`, which the serial
mapping sends to June 18, 2020. -/
theorem c4_serial_witness :
    parse_date_flexible (.pint 44000) = some ⟨2020, 6, 18⟩ := by
  rw [c4_serial_amended 44000 (by decide) (by decide)]
  decide

/-! ## Claim C5: totality of the date normalizer -/

/-- C5.  The normalizer is a total function of its input (the embedding of
`parse_date_flexible` catches every `ValueError`/`OverflowError` path as
`none`): every input yields either the no-date result or a valid calendar
date, and the invalid calendar string `"29/02/2025"` (February 29 of a
non-leap year) yields the no-date result rather than a coerced date. -/
theorem c5_total_no_raise :
    (∀ v : PyInput, parse_date_flexible v = none ∨
      ∃ d, parse_date_flexible v = some d ∧ validDate d = true) ∧
    parse_date_flexible (.pstr "29/02/2025") = none := by
  refine ⟨?_, by decide⟩
  intro v
  cases h : parse_date_flexible v with
  | none => exact Or.inl rfl
  | some d =>
    refine Or.inr ⟨d, rfl, ?_⟩
    unfold parse_date_flexible at h
    split at h
    · cases h
    · split at h
      next heq =>
        cases h
        exact tryFormats_valid heq
      next =>
        split at h
        · exact fromOrdinal_valid h
        · exact fromOrdinal_valid h
        · cases h

/-! ## Claim C10: the serial fallback is type-gated -/

/-- Any format whose separator is not a digit fails on an all-digit string. -/
theorem strptimeF_none_of_digits {f : Fmt} (hsep : f.sep.isDigit = false)
    {s : String} (hdig : ∀ c ∈ s.data, c.isDigit = true) :
    strptimeF f s = none := by
  cases h : strptimeF f s with
  | none => rfl
  | some d =>
    exfalso
    obtain ⟨hmem, -⟩ := strptimeF_chars h
    rw [hdig _ hmem] at hsep
    cases hsep

/-- C10.  The Excel-serial fallback applies only to inputs of numeric type:
a *string* of digits matches none of the five textual patterns (each needs a
separator character) and, being a string, never reaches the
`isinstance(date_str, (int, float))` branch, so it yields the no-date
result. -/
theorem c10_digit_string_no_serial (s : String)
    (hdig : ∀ c ∈ s.data, c.isDigit = true) :
    parse_date_flexible (.pstr s) = none := by
  unfold parse_date_flexible
  split
  · rfl
  · have hfmt : tryFormats s = none := by
      unfold tryFormats
      rw [strptimeF_none_of_digits (by decide) hdig,
        strptimeF_none_of_digits (by decide) hdig,
        strptimeF_none_of_digits (by decide) hdig,
        strptimeF_none_of_digits (by decide) hdig,
        strptimeF_none_of_digits (by decide) hdig]
      rfl
    simp only [pyStr, hfmt]

/-- Witness for C10 at the string `"44000"`: the digit string that, as a
*number*, would be a serial date, yields no date as a string. -/
theorem c10_digit_string_witness : parse_date_flexible (.pstr "44000") = none :=
  c10_digit_string_no_serial "44000" (by decide)

/-! ## Python whitespace stripping -/

/-- Characters Python's no-argument `str.strip()` removes (ASCII whitespace;
the application's data never contains the exotic Unicode spaces). -/
def pyIsSpace (c : Char) : Bool :=
  c = ' ' ∨ c = '\t' ∨ c = '\n' ∨ c = '\r' ∨ c = '\x0b' ∨ c = '\x0c'

/-- Right-strip on character lists. -/
def rstripL (l : List Char) : List Char := (l.reverse.dropWhile pyIsSpace).reverse

/-- Both-sides strip on character lists. -/
def stripL (l : List Char) : List Char := rstripL (l.dropWhile pyIsSpace)

/-- Python `str.strip()`. -/
def pyStrip (s : String) : String := ⟨stripL s.data⟩

theorem rstripL_append (xs ys : List Char) :
    rstripL (xs ++ ys) = if rstripL ys = [] then rstripL xs else xs ++ rstripL ys := by
  unfold rstripL
  rw [List.reverse_append, List.dropWhile_append]
  rcases h : ys.reverse.dropWhile pyIsSpace with - | ⟨c, t⟩
  · simp
  · simp [List.reverse_append]

theorem rstripL_prefixOf (l : List Char) : rstripL l <+: l := by
  unfold rstripL
  have h := List.dropWhile_suffix (l := l.reverse) pyIsSpace
  have := List.reverse_prefix.mpr h
  simpa using this

theorem dropWhile_head_not {p : Char → Bool} :
    ∀ {l : List Char} {c : Char} {t : List Char}, l.dropWhile p = c :: t → p c = false := by
  intro l
  induction l with
  | nil => intro c t h; cases h
  | cons a l ih =>
    intro c t h
    rw [List.dropWhile_cons] at h
    split at h
    · exact ih h
    next hpa =>
      cases h
      simpa using hpa

theorem dropWhile_idem {p : Char → Bool} (l : List Char) :
    (l.dropWhile p).dropWhile p = l.dropWhile p := by
  rcases h : l.dropWhile p with - | ⟨c, t⟩
  · rfl
  · rw [List.dropWhile_cons, dropWhile_head_not h]
    simp

theorem rstripL_idem (l : List Char) : rstripL (rstripL l) = rstripL l := by
  unfold rstripL
  rw [List.reverse_reverse, dropWhile_idem]

theorem stripL_head_not {l : List Char} {c : Char} {t : List Char}
    (h : stripL l = c :: t) : pyIsSpace c = false := by
  have hpre : stripL l <+: l.dropWhile pyIsSpace := rstripL_prefixOf _
  rw [h] at hpre
  obtain ⟨r, hr⟩ := hpre
  exact dropWhile_head_not hr.symm

theorem stripL_idem (l : List Char) : stripL (stripL l) = stripL l := by
  unfold stripL
  have h1 : (stripL l).dropWhile pyIsSpace = stripL l := by
    rcases h : stripL l with - | ⟨c, t⟩
    · rfl
    · rw [List.dropWhile_cons, stripL_head_not h]
      simp
  calc rstripL ((rstripL (l.dropWhile pyIsSpace)).dropWhile pyIsSpace)
      = rstripL ((stripL l).dropWhile pyIsSpace) := rfl
    _ = rstripL (stripL l) := by rw [h1]
    _ = rstripL (rstripL (l.dropWhile pyIsSpace)) := rfl
    _ = rstripL (l.dropWhile pyIsSpace) := rstripL_idem _

theorem stripL_cons_nonspace {c : Char} (hc : pyIsSpace c = false) (l : List Char) :
    stripL (c :: l) = rstripL (c :: l) := by
  unfold stripL
  rw [List.dropWhile_cons, hc]
  simp

theorem stripL_suffix_rstripL (l : List Char) : stripL l <:+ rstripL l := by
  conv_rhs => rw [← List.takeWhile_append_dropWhile (p := pyIsSpace) (l := l)]
  rw [rstripL_append]
  split
  next h =>
    rw [show stripL l = rstripL (l.dropWhile pyIsSpace) from rfl, h]
    exact List.nil_suffix
  next h => exact List.suffix_append _ _

theorem rstripL_cons (c : Char) (t : List Char) :
    rstripL (c :: t) = if rstripL t = [] then rstripL [c] else [c] ++ rstripL t := by
  have := rstripL_append [c] t
  simpa using this

theorem stripL_append_of_head {c : Char} (t suffix : List Char)
    (hc : pyIsSpace c = false) :
    stripL ((c :: t) ++ suffix) = if rstripL suffix = [] then rstripL (c :: t)
      else (c :: t) ++ rstripL suffix := by
  rw [List.cons_append, stripL_cons_nonspace hc, ← List.cons_append, rstripL_append]

/-- Prepending a `[`-headed entry, a blank separator line and the old text,
then stripping: the stripped entry stays a prefix of the result and the
stripped old text stays a suffix of it. -/
theorem prepend_entry_spec (c : Char) (restE old : List Char) (hc : pyIsSpace c = false) :
    rstripL (c :: restE) <+: stripL (((c :: restE) ++ ['\n']) ++ '\n' :: old) ∧
    stripL old <:+ stripL (((c :: restE) ++ ['\n']) ++ '\n' :: old) := by
  have hX : ((c :: restE) ++ ['\n']) ++ '\n' :: old = (c :: restE) ++ ('\n' :: '\n' :: old) := by
    rw [List.append_assoc]
    rfl
  rw [hX, stripL_append_of_head restE _ hc]
  by_cases h0 : rstripL old = []
  · have h1 : rstripL ('\n' :: old) = [] := by
      rw [rstripL_cons, if_pos h0]
      decide
    have h2 : rstripL ('\n' :: '\n' :: old) = [] := by
      rw [rstripL_cons, if_pos h1]
      decide
    rw [if_pos h2]
    constructor
    · exact List.prefix_refl _
    · have hs := stripL_suffix_rstripL old
      rw [h0] at hs
      rw [List.suffix_nil.mp hs]
      exact List.nil_suffix
  · have h1 : rstripL ('\n' :: old) = '\n' :: rstripL old := by
      rw [rstripL_cons, if_neg h0]
      rfl
    have h2 : rstripL ('\n' :: '\n' :: old) = '\n' :: '\n' :: rstripL old := by
      rw [rstripL_cons, if_neg (by rw [h1]; simp), h1]
      rfl
    rw [h2, if_neg (by simp)]
    constructor
    · exact (rstripL_prefixOf _).trans (List.prefix_append _ _)
    · refine ((stripL_suffix_rstripL old).trans ?_).trans (List.suffix_append _ _)
      exact (List.suffix_cons _ _).trans (List.suffix_cons _ _)

/-- Stripping a `[`-headed entry followed by its final newline. -/
theorem entry_only_spec (c : Char) (restE : List Char) (hc : pyIsSpace c = false) :
    stripL ((c :: restE) ++ ['\n']) = rstripL (c :: restE) := by
  rw [stripL_append_of_head restE _ hc, if_pos (by decide)]

theorem pyStrip_data (s : String) : (pyStrip s).data = stripL s.data := rfl

theorem pyStrip_idem (s : String) : pyStrip (pyStrip s) = pyStrip s := by
  apply String.ext
  rw [pyStrip_data, pyStrip_data, stripL_idem]

/-! ## The Task record (src/models.py, class Task)

Scalar Python values that can occur in a serialized task dictionary (JSON
scalars of the request payloads; `tnull` is Python `None`). -/

inductive TVal where
  | tnull
  | tbool (b : Bool)
  | tint (n : Int)
  | tstr (s : String)
deriving DecidableEq

namespace ProgressPad

/-- The persisted columns of the `tasks` table.  Nullable text columns are
`Option String`, date columns `Option Date`, and the JSON `custom_fields`
column an association list of scalar values (`None` default modelled as the
empty list, which behaves identically under `if self.custom_fields`). -/
structure Task where
  id : String
  type : Option String
  product : Option String
  module : Option String
  description : Option String
  status : Option String
  priority : Option String
  created_date : Option Date
  due_date : Option Date
  status_update_date : Option Date
  action_plan_status : Option String
  current_action_plan : Option String
  action_plan_history : Option String
  category : Option String
  requester : Option String
  business_unit : Option String
  custom_fields : List (String × TVal)
deriving DecidableEq

/-! ## Action-plan updates (src/app.py, update_action_plan 345-361 and
standup_update_action_plan 364-390)

Both routes look the task up by (stripped) id, returning an error result
(`none`) when there is no such task, and otherwise commit the updated task;
`today` stands for `datetime.now().date()`. -/

/-- `/update_action_plan`: set `current_action_plan` to the stripped new text
and prepend `[ISO-date]\n<new text>\n` plus a blank line to the history,
stripping the result. -/
def update_action_plan (tasks : List Task) (rowIdRaw newPlanRaw : String)
    (today : Date) : Option Task :=
  let row_id := pyStrip rowIdRaw
  let new_plan := pyStrip newPlanRaw
  match tasks.find? (fun t => t.id == row_id) with
  | none => none
  | some task =>
    let history := task.action_plan_history.getD ""
    let timestamp := isoDate today
    let new_entry := "[" ++ timestamp ++ "]\n" ++ pyStrip new_plan ++ "\n"
    some { task with
      current_action_plan := some new_plan,
      action_plan_history := some (pyStrip (new_entry ++ "\n" ++ history)) }

/-- `/standup_update_action_plan`: when the stripped current plan is
non-empty, prepend `[STANDUP ISO-date]\n<old current plan>\n` to the history
(with a blank separator line only when a history already exists), then set
the new plan as current. -/
def standup_update_action_plan (tasks : List Task) (rowIdRaw newPlanRaw : String)
    (today : Date) : Option Task :=
  let row_id := pyStrip rowIdRaw
  let new_plan := pyStrip newPlanRaw
  match tasks.find? (fun t => t.id == row_id) with
  | none => none
  | some task =>
    let current_plan := task.current_action_plan.getD ""
    let history := task.action_plan_history.getD ""
    let task1 :=
      if pyStrip current_plan = "" then task
      else
        let timestamp := isoDate today
        let standup_entry := "[STANDUP " ++ timestamp ++ "]\n" ++ pyStrip current_plan ++ "\n"
        if history = "" then { task with action_plan_history := some (pyStrip standup_entry) }
        else { task with action_plan_history := some (pyStrip (standup_entry ++ "\n" ++ history)) }
    some { task1 with current_action_plan := some new_plan }

/-- Current action plan of an endpoint result. -/
def resCurrent (r : Option Task) : Option String :=
  match r with
  | some t => t.current_action_plan
  | none => none

/-- Action-plan history of an endpoint result (empty when the lookup failed
or the column is NULL). -/
def resHistory (r : Option Task) : String :=
  match r with
  | some t => t.action_plan_history.getD ""
  | none => ""


theorem update_action_plan_eq (tasks : List Task) (rid raw : String) (today : Date)
    (t0 : Task) (hfind : tasks.find? (fun t => t.id == pyStrip rid) = some t0) :
    update_action_plan tasks rid raw today = some { t0 with
      current_action_plan := some (pyStrip raw),
      action_plan_history := some (pyStrip
        (("[" ++ isoDate today ++ "]\n" ++ pyStrip raw ++ "\n") ++ "\n"
          ++ t0.action_plan_history.getD "")) } := by
  unfold update_action_plan
  simp only [hfind]
  rw [pyStrip_idem]

theorem standup_current (tasks : List Task) (rid raw : String) (today : Date)
    (t0 : Task) (hfind : tasks.find? (fun t => t.id == pyStrip rid) = some t0) :
    resCurrent (standup_update_action_plan tasks rid raw today) = some (pyStrip raw) := by
  unfold standup_update_action_plan
  simp only [hfind]
  rfl

theorem standup_eq_cur_hist (tasks : List Task) (rid raw : String) (today : Date)
    (t0 : Task) (hfind : tasks.find? (fun t => t.id == pyStrip rid) = some t0)
    (hcur : ¬ pyStrip (t0.current_action_plan.getD "") = "")
    (hh : ¬ t0.action_plan_history.getD "" = "") :
    standup_update_action_plan tasks rid raw today = some { t0 with
      current_action_plan := some (pyStrip raw),
      action_plan_history := some (pyStrip
        (("[STANDUP " ++ isoDate today ++ "]\n" ++ pyStrip (t0.current_action_plan.getD "") ++ "\n")
          ++ "\n" ++ t0.action_plan_history.getD "")) } := by
  unfold standup_update_action_plan
  simp only [hfind]
  rw [if_neg hcur, if_neg hh]

theorem standup_eq_cur_nohist (tasks : List Task) (rid raw : String) (today : Date)
    (t0 : Task) (hfind : tasks.find? (fun t => t.id == pyStrip rid) = some t0)
    (hcur : ¬ pyStrip (t0.current_action_plan.getD "") = "")
    (hh : t0.action_plan_history.getD "" = "") :
    standup_update_action_plan tasks rid raw today = some { t0 with
      current_action_plan := some (pyStrip raw),
      action_plan_history := some (pyStrip
        ("[STANDUP " ++ isoDate today ++ "]\n" ++ pyStrip (t0.current_action_plan.getD "") ++ "\n")) } := by
  unfold standup_update_action_plan
  simp only [hfind]
  rw [if_neg hcur, if_pos hh]

theorem strip_prepend_main (head : Char) (restE : List Char) (hhead : pyIsSpace head = false)
    (E X old : String)
    (hE : E.data = head :: restE)
    (hX : X.data = ((head :: restE) ++ ['\n']) ++ '\n' :: old.data) :
    (pyStrip E).data <+: (pyStrip X).data ∧ (pyStrip old).data <:+ (pyStrip X).data := by
  simp only [pyStrip_data]
  rw [hE, hX, stripL_cons_nonspace hhead]
  exact prepend_entry_spec head restE old.data hhead

theorem strip_entry_only (head : Char) (restE : List Char) (hhead : pyIsSpace head = false)
    (E X : String) (hE : E.data = head :: restE)
    (hX : X.data = (head :: restE) ++ ['\n']) :
    (pyStrip E).data <+: (pyStrip X).data := by
  simp only [pyStrip_data]
  rw [hE, hX, stripL_cons_nonspace hhead, entry_only_spec head restE hhead]

/-- C3.  For every task found by (stripped) id, the two action-plan updates
are asymmetric exactly as specified.  Direct update: `current_action_plan`
becomes the (stripped) new text, the stripped dated entry
`[YYYY-MM-DD]\n<NEW text>` is a prefix of the new history, the stripped old
history survives as a suffix after it, and the stored history is
whitespace-trimmed (stripping it again changes nothing).  Standup rollover:
`current_action_plan` becomes the new text, and when a non-empty current plan
existed, the stripped entry `[STANDUP YYYY-MM-DD]\n<OLD current plan>` is a
prefix of the new history, the stripped old history survives as a suffix, and
the stored history is whitespace-trimmed. -/
theorem c3_action_plan_asymmetry (tasks : List Task) (rid raw : String) (today : Date)
    (t0 : Task) (hfind : tasks.find? (fun t => t.id == pyStrip rid) = some t0) :
    (resCurrent (update_action_plan tasks rid raw today) = some (pyStrip raw) ∧
     (pyStrip ("[" ++ isoDate today ++ "]\n" ++ pyStrip raw)).data <+:
       (resHistory (update_action_plan tasks rid raw today)).data ∧
     (pyStrip (t0.action_plan_history.getD "")).data <:+
       (resHistory (update_action_plan tasks rid raw today)).data ∧
     pyStrip (resHistory (update_action_plan tasks rid raw today)) =
       resHistory (update_action_plan tasks rid raw today)) ∧
    (resCurrent (standup_update_action_plan tasks rid raw today) = some (pyStrip raw) ∧
     (¬ pyStrip (t0.current_action_plan.getD "") = "" →
       (pyStrip ("[STANDUP " ++ isoDate today ++ "]\n"
           ++ pyStrip (t0.current_action_plan.getD ""))).data <+:
         (resHistory (standup_update_action_plan tasks rid raw today)).data ∧
       (pyStrip (t0.action_plan_history.getD "")).data <:+
         (resHistory (standup_update_action_plan tasks rid raw today)).data ∧
       pyStrip (resHistory (standup_update_action_plan tasks rid raw today)) =
         resHistory (standup_update_action_plan tasks rid raw today))) := by
  have hupd := update_action_plan_eq tasks rid raw today t0 hfind
  have hresDir : resHistory (update_action_plan tasks rid raw today)
      = pyStrip (("[" ++ isoDate today ++ "]\n" ++ pyStrip raw ++ "\n") ++ "\n"
          ++ t0.action_plan_history.getD "") := by
    rw [hupd]
    rfl
  have hEdir : ("[" ++ isoDate today ++ "]\n" ++ pyStrip raw).data
      = '[' :: ((isoDate today).data ++ ']' :: '\n' :: (pyStrip raw).data) := by
    simp [String.data_append, show ("[" : String).data = ['['] from rfl,
      show ("]\n" : String).data = [']', '\n'] from rfl]
  have hXdir : ((("[" ++ isoDate today ++ "]\n" ++ pyStrip raw ++ "\n") ++ "\n"
        ++ t0.action_plan_history.getD "") : String).data
      = (('[' :: ((isoDate today).data ++ ']' :: '\n' :: (pyStrip raw).data)) ++ ['\n'])
          ++ '\n' :: (t0.action_plan_history.getD "").data := by
    simp [String.data_append, show ("[" : String).data = ['['] from rfl,
      show ("]\n" : String).data = [']', '\n'] from rfl,
      show ("\n" : String).data = ['\n'] from rfl]
  have hmainDir := strip_prepend_main '[' _ (by decide) _ _ _ hEdir hXdir
  refine ⟨⟨?_, ?_, ?_, ?_⟩, standup_current tasks rid raw today t0 hfind, ?_⟩
  · rw [hupd]
    rfl
  · rw [hresDir]
    exact hmainDir.1
  · rw [hresDir]
    exact hmainDir.2
  · rw [hresDir]
    exact pyStrip_idem _
  · intro hcur
    by_cases hh : t0.action_plan_history.getD "" = ""
    · have hstand := standup_eq_cur_nohist tasks rid raw today t0 hfind hcur hh
      have hres : resHistory (standup_update_action_plan tasks rid raw today)
          = pyStrip ("[STANDUP " ++ isoDate today ++ "]\n"
              ++ pyStrip (t0.current_action_plan.getD "") ++ "\n") := by
        rw [hstand]
        rfl
      have hE : ("[STANDUP " ++ isoDate today ++ "]\n"
            ++ pyStrip (t0.current_action_plan.getD "")).data
          = '[' :: (['S', 'T', 'A', 'N', 'D', 'U', 'P', ' '] ++ ((isoDate today).data
              ++ ']' :: '\n' :: (pyStrip (t0.current_action_plan.getD "")).data)) := by
        simp [String.data_append,
          show ("[STANDUP " : String).data = ['[', 'S', 'T', 'A', 'N', 'D', 'U', 'P', ' '] from rfl,
          show ("]\n" : String).data = [']', '\n'] from rfl]
      have hX : (("[STANDUP " ++ isoDate today ++ "]\n"
            ++ pyStrip (t0.current_action_plan.getD "") ++ "\n") : String).data
          = ('[' :: (['S', 'T', 'A', 'N', 'D', 'U', 'P', ' '] ++ ((isoDate today).data
              ++ ']' :: '\n' :: (pyStrip (t0.current_action_plan.getD "")).data))) ++ ['\n'] := by
        simp [String.data_append,
          show ("[STANDUP " : String).data = ['[', 'S', 'T', 'A', 'N', 'D', 'U', 'P', ' '] from rfl,
          show ("]\n" : String).data = [']', '\n'] from rfl,
          show ("\n" : String).data = ['\n'] from rfl]
      refine ⟨?_, ?_, ?_⟩
      · rw [hres]
        exact strip_entry_only '[' _ (by decide) _ _ hE hX
      · rw [hres, hh]
        exact List.nil_suffix
      · rw [hres]
        exact pyStrip_idem _
    · have hstand := standup_eq_cur_hist tasks rid raw today t0 hfind hcur hh
      have hres : resHistory (standup_update_action_plan tasks rid raw today)
          = pyStrip (("[STANDUP " ++ isoDate today ++ "]\n"
              ++ pyStrip (t0.current_action_plan.getD "") ++ "\n") ++ "\n"
              ++ t0.action_plan_history.getD "") := by
        rw [hstand]
        rfl
      have hE : ("[STANDUP " ++ isoDate today ++ "]\n"
            ++ pyStrip (t0.current_action_plan.getD "")).data
          = '[' :: (['S', 'T', 'A', 'N', 'D', 'U', 'P', ' '] ++ ((isoDate today).data
              ++ ']' :: '\n' :: (pyStrip (t0.current_action_plan.getD "")).data)) := by
        simp [String.data_append,
          show ("[STANDUP " : String).data = ['[', 'S', 'T', 'A', 'N', 'D', 'U', 'P', ' '] from rfl,
          show ("]\n" : String).data = [']', '\n'] from rfl]
      have hX : ((("[STANDUP " ++ isoDate today ++ "]\n"
            ++ pyStrip (t0.current_action_plan.getD "") ++ "\n") ++ "\n"
            ++ t0.action_plan_history.getD "") : String).data
          = (('[' :: (['S', 'T', 'A', 'N', 'D', 'U', 'P', ' '] ++ ((isoDate today).data
              ++ ']' :: '\n' :: (pyStrip (t0.current_action_plan.getD "")).data))) ++ ['\n'])
              ++ '\n' :: (t0.action_plan_history.getD "").data := by
        simp [String.data_append,
          show ("[STANDUP " : String).data = ['[', 'S', 'T', 'A', 'N', 'D', 'U', 'P', ' '] from rfl,
          show ("]\n" : String).data = [']', '\n'] from rfl,
          show ("\n" : String).data = ['\n'] from rfl]
      have hmain := strip_prepend_main '[' _ (by decide) _ _ _ hE hX
      refine ⟨?_, ?_, ?_⟩
      · rw [hres]
        exact hmain.1
      · rw [hres]
        exact hmain.2
      · rw [hres]
        exact pyStrip_idem _

/-- Example task used by concrete witnesses: a task with a current action
plan and one existing history entry. -/
def tEx : Task :=
  { id := "T001", type := none, product := none, module := none,
    description := none, status := some "In Progress", priority := none,
    created_date := none, due_date := none, status_update_date := none,
    action_plan_status := none, current_action_plan := some "Investigate logs",
    action_plan_history := some "[2025-09-01]\nold entry", category := none,
    requester := none, business_unit := none, custom_fields := [] }

/-- Witness for C3 on a concrete task: direct update and standup rollover of
`tEx` with new text `"Fix root cause"`. -/
theorem c3_action_plan_witness :
    ([tEx].find? (fun t => t.id == pyStrip "T001") = some tEx) ∧
    ¬ pyStrip (tEx.current_action_plan.getD "") = "" ∧
    resCurrent (update_action_plan [tEx] "T001" "Fix root cause" ⟨2025, 9, 2⟩)
      = some (pyStrip "Fix root cause") ∧
    resCurrent (standup_update_action_plan [tEx] "T001" "Fix root cause" ⟨2025, 9, 2⟩)
      = some (pyStrip "Fix root cause") ∧
    (pyStrip ("[" ++ isoDate ⟨2025, 9, 2⟩ ++ "]\n" ++ pyStrip "Fix root cause")).data <+:
      (resHistory (update_action_plan [tEx] "T001" "Fix root cause" ⟨2025, 9, 2⟩)).data ∧
    (pyStrip ("[STANDUP " ++ isoDate ⟨2025, 9, 2⟩ ++ "]\n"
        ++ pyStrip (tEx.current_action_plan.getD ""))).data <+:
      (resHistory (standup_update_action_plan [tEx] "T001" "Fix root cause" ⟨2025, 9, 2⟩)).data := by
  have h := c3_action_plan_asymmetry [tEx] "T001" "Fix root cause" ⟨2025, 9, 2⟩ tEx (by decide)
  exact ⟨by decide, by decide, h.1.1, h.2.1, h.1.2.1, (h.2.2 (by decide)).1⟩
/-! ## The ordinal is injective on valid dates

These facts let the derived-flag policy be phrased with date subtraction
(`(due_date - today).days`, i.e. ordinal differences) interchangeably with
date comparisons. -/

/-- Length of year `y` in days. -/
def yearDays (y : Nat) : Nat := if isLeap y then 366 else 365

theorem isLeap_iff (y : Nat) :
    isLeap y = true ↔ (y % 4 = 0 ∧ (¬ y % 100 = 0 ∨ y % 400 = 0)) := by
  simp [isLeap]

theorem leapsBefore_succ (y : Nat) (hy : 1 ≤ y) :
    leapsBefore (y + 1) = leapsBefore y + (if isLeap y then 1 else 0) := by
  have hiff := isLeap_iff y
  by_cases hL : isLeap y = true
  · rw [if_pos hL]
    obtain ⟨h4, hor⟩ := hiff.mp hL
    unfold leapsBefore
    rcases hor with h100 | h400
    · omega
    · omega
  · rw [if_neg hL]
    have hp : ¬ (y % 4 = 0 ∧ (¬ y % 100 = 0 ∨ y % 400 = 0)) := fun hc => hL (hiff.mpr hc)
    unfold leapsBefore
    by_cases h4 : y % 4 = 0
    · by_cases h400 : y % 400 = 0
      · exact absurd ⟨h4, Or.inr h400⟩ hp
      · have h100 : y % 100 = 0 := by
          by_contra h100
          exact hp ⟨h4, Or.inl h100⟩
        omega
    · omega

theorem yearStart_succ (y : Nat) (hy : 1 ≤ y) :
    365 * ((y + 1) - 1) + leapsBefore (y + 1)
      = (365 * (y - 1) + leapsBefore y) + yearDays y := by
  rw [leapsBefore_succ y hy]
  unfold yearDays
  by_cases h : isLeap y <;> simp [h] <;> omega

theorem yearStart_mono {y1 : Nat} (h1 : 1 ≤ y1) :
    ∀ {y2 : Nat}, y1 < y2 →
      365 * (y1 - 1) + leapsBefore y1 + yearDays y1 ≤ 365 * (y2 - 1) + leapsBefore y2 := by
  intro y2
  induction y2 with
  | zero => omega
  | succ k ih =>
    intro h
    rcases Nat.lt_or_ge y1 k with hk | hk
    · have hik := ih hk
      have hs := yearStart_succ k (by omega)
      omega
    · have hek : y1 = k := by omega
      subst hek
      have hs := yearStart_succ y1 h1
      omega

theorem dbm_succ (y m : Nat) (hm : 1 ≤ m) :
    daysBeforeMonth y (m + 1) = daysBeforeMonth y m + daysInMonth y m := by
  cases m with
  | zero => omega
  | succ k => rfl

theorem dbm_mono (y : Nat) {m1 : Nat} : ∀ {m2 : Nat}, m1 ≤ m2 →
    daysBeforeMonth y m1 ≤ daysBeforeMonth y m2 := by
  intro m2
  induction m2 with
  | zero =>
    intro h
    have he : m1 = 0 := by omega
    subst he
    exact Nat.le_refl _
  | succ k ih =>
    intro h
    rcases Nat.lt_or_ge m1 (k + 1) with hk | hk
    · have hik := ih (by omega)
      have h2 : daysBeforeMonth y k ≤ daysBeforeMonth y (k + 1) := Nat.le_add_right _ _
      omega
    · have he : m1 = k + 1 := by omega
      subst he
      exact Nat.le_refl _

theorem dbm_13 (y : Nat) : daysBeforeMonth y 13 = yearDays y := by
  cases hL : isLeap y <;>
    simp [daysBeforeMonth, daysInMonth, yearDays, hL]

theorem doy_bounds (y m d : Nat) (hm1 : 1 ≤ m) (hm2 : m ≤ 12)
    (hd1 : 1 ≤ d) (hd2 : d ≤ daysInMonth y m) :
    1 ≤ daysBeforeMonth y m + d ∧ daysBeforeMonth y m + d ≤ yearDays y := by
  have hsucc := dbm_succ y m hm1
  have hmono := dbm_mono y (show m + 1 ≤ 13 by omega)
  have h13 := dbm_13 y
  omega

theorem doy_inj (y : Nat) {m1 d1 m2 d2 : Nat}
    (hm1 : 1 ≤ m1) (_hm1' : m1 ≤ 12) (hd1 : 1 ≤ d1) (hd1' : d1 ≤ daysInMonth y m1)
    (hm2 : 1 ≤ m2) (hm2' : m2 ≤ 12) (hd2 : 1 ≤ d2) (hd2' : d2 ≤ daysInMonth y m2)
    (h : daysBeforeMonth y m1 + d1 = daysBeforeMonth y m2 + d2) :
    m1 = m2 ∧ d1 = d2 := by
  have key : ∀ {ma da mb db : Nat}, 1 ≤ ma → da ≤ daysInMonth y ma →
      1 ≤ db → ma < mb →
      daysBeforeMonth y ma + da < daysBeforeMonth y mb + db := by
    intro ma da mb db hma hda hdb hlt
    have hsucc := dbm_succ y ma hma
    have hmono := dbm_mono y (show ma + 1 ≤ mb by omega)
    omega
  rcases Nat.lt_trichotomy m1 m2 with hm | hm | hm
  · exact absurd h (by have := key hm1 hd1' hd2 hm; omega)
  · subst hm
    exact ⟨rfl, by omega⟩
  · exact absurd h (by have := key hm2 hd2' hd1 hm; omega)

theorem toOrdinal_inj {a b : Date} (ha : validDate a = true) (hb : validDate b = true)
    (h : toOrdinal a = toOrdinal b) : a = b := by
  obtain ⟨ya, ma, da⟩ := a
  obtain ⟨yb, mb, db⟩ := b
  simp only [validDate, decide_eq_true_eq] at ha hb
  obtain ⟨hya1, hya2, hma1, hma2, hda1, hda2⟩ := ha
  obtain ⟨hyb1, hyb2, hmb1, hmb2, hdb1, hdb2⟩ := hb
  unfold toOrdinal at h
  simp only at h
  have hyy : ya = yb := by
    rcases Nat.lt_trichotomy ya yb with hy | hy | hy
    · exfalso
      have hba := (doy_bounds ya ma da hma1 hma2 hda1 hda2).2
      have hbb := (doy_bounds yb mb db hmb1 hmb2 hdb1 hdb2).1
      have hmono := yearStart_mono hya1 hy
      omega
    · exact hy
    · exfalso
      have hba := (doy_bounds ya ma da hma1 hma2 hda1 hda2).1
      have hbb := (doy_bounds yb mb db hmb1 hmb2 hdb1 hdb2).2
      have hmono := yearStart_mono hyb1 hy
      omega
  subst hyy
  have hdoy : daysBeforeMonth ya ma + da = daysBeforeMonth ya mb + db := by omega
  obtain ⟨hm, hd⟩ := doy_inj ya hma1 hma2 hda1 hda2 hmb1 hmb2 hdb1 hdb2 hdoy
  subst hm
  subst hd
  rfl

/-! ## Task.to_dict (src/models.py lines 61-99) -/

/-- A nullable string column as a dictionary value. -/
def optStr : Option String → TVal
  | none => .tnull
  | some s => .tstr s

/-- A nullable date column as a dictionary value (`isoformat()` or `None`). -/
def optDateIso : Option Date → TVal
  | none => .tnull
  | some d => .tstr (isoDate d)

/-- Python dictionary read: value of the first (= only) binding of `k`. -/
def dictGet (d : List (String × TVal)) (k : String) : Option TVal :=
  match d with
  | [] => none
  | (k', v) :: rest => if k' = k then some v else dictGet rest k

/-- Python dictionary write `d[k] = v`: replace the binding if present, else
append. -/
def dictSet (d : List (String × TVal)) (k : String) (v : TVal) : List (String × TVal) :=
  match d with
  | [] => [(k, v)]
  | (k', v') :: rest => if k' = k then (k', v) :: rest else (k', v') :: dictSet rest k v

theorem dictGet_set_self (d : List (String × TVal)) (k : String) (v : TVal) :
    dictGet (dictSet d k v) k = some v := by
  induction d with
  | nil => simp [dictSet, dictGet]
  | cons p rest ih =>
    obtain ⟨k', v'⟩ := p
    by_cases h : k' = k <;> simp [dictSet, dictGet, h, ih]

theorem dictGet_set_ne (d : List (String × TVal)) {k k2 : String} (v : TVal)
    (h : ¬ k = k2) : dictGet (dictSet d k v) k2 = dictGet d k2 := by
  induction d with
  | nil => simp [dictSet, dictGet, h]
  | cons p rest ih =>
    obtain ⟨ka, va⟩ := p
    by_cases hh : ka = k
    · subst hh
      simp [dictSet, dictGet, h]
    · simp [dictSet, dictGet, hh, ih]

theorem dictGet_fold_ne (cfs : List (String × TVal)) (d : List (String × TVal))
    (k : String) (h : ∀ kv ∈ cfs, ¬ kv.1 = k) :
    dictGet (cfs.foldl (fun acc kv => dictSet acc kv.1 kv.2) d) k = dictGet d k := by
  induction cfs generalizing d with
  | nil => rfl
  | cons p rest ih =>
    rw [List.foldl_cons, ih _ (fun kv hkv => h kv (List.mem_cons_of_mem _ hkv))]
    exact dictGet_set_ne d p.2 (h p (List.mem_cons_self _ _))

/-- The dictionary literal built first by `to_dict` (derived flags start out
`False`). -/
def to_dict_base (t : Task) : List (String × TVal) :=
  [("ID", .tstr t.id),
   ("Type", optStr t.type),
   ("Product", optStr t.product),
   ("Module", optStr t.module),
   ("Description", optStr t.description),
   ("Status", optStr t.status),
   ("Priority", optStr t.priority),
   ("Created Date", optDateIso t.created_date),
   ("Due Date", optDateIso t.due_date),
   ("Status Update Date", optDateIso t.status_update_date),
   ("Action Plan Status", optStr t.action_plan_status),
   ("Current Action Plan", optStr t.current_action_plan),
   ("Action Plan History", optStr t.action_plan_history),
   ("Category", optStr t.category),
   ("Requester", optStr t.requester),
   ("Business Unit", optStr t.business_unit),
   ("is_overdue", .tbool false),
   ("due_soon", .tbool false),
   ("due_today", .tbool false)]

/-- `Task.to_dict`: the base dictionary, updated with the custom fields
(`result.update(self.custom_fields)`), then the date-based flags computed
when a due date exists and the status is not `"Completed"` — an `elif` chain
ordered overdue, due-today, due-soon (`(due_date - today).days <= 3`).
Python date comparison and subtraction go by `toordinal`. -/
def to_dict (t : Task) (today : Date) : List (String × TVal) :=
  let r1 := t.custom_fields.foldl (fun d kv => dictSet d kv.1 kv.2) (to_dict_base t)
  match t.due_date with
  | none => r1
  | some due =>
    if t.status = some "Completed" then r1
    else if toOrdinal due < toOrdinal today then dictSet r1 "is_overdue" (.tbool true)
    else if due = today then dictSet r1 "due_today" (.tbool true)
    else if (toOrdinal due : Int) - (toOrdinal today : Int) ≤ 3 then
      dictSet r1 "due_soon" (.tbool true)
    else r1

theorem to_dict_no_flag (t : Task) (today : Date)
    (h : t.status = some "Completed" ∨ t.due_date = none) :
    to_dict t today
      = t.custom_fields.foldl (fun d kv => dictSet d kv.1 kv.2) (to_dict_base t) := by
  unfold to_dict
  rcases hdue : t.due_date with - | due
  · rfl
  · rcases h with h | h
    · simp only [if_pos h]
    · rw [hdue] at h
      cases h

theorem to_dict_flag_branch (t : Task) (today due : Date)
    (hdue : t.due_date = some due) (hs : ¬ t.status = some "Completed") :
    to_dict t today
      = (if toOrdinal due < toOrdinal today then
           dictSet (t.custom_fields.foldl (fun d kv => dictSet d kv.1 kv.2) (to_dict_base t))
             "is_overdue" (.tbool true)
         else if due = today then
           dictSet (t.custom_fields.foldl (fun d kv => dictSet d kv.1 kv.2) (to_dict_base t))
             "due_today" (.tbool true)
         else if (toOrdinal due : Int) - (toOrdinal today : Int) ≤ 3 then
           dictSet (t.custom_fields.foldl (fun d kv => dictSet d kv.1 kv.2) (to_dict_base t))
             "due_soon" (.tbool true)
         else t.custom_fields.foldl (fun d kv => dictSet d kv.1 kv.2) (to_dict_base t)) := by
  unfold to_dict
  rw [hdue]
  simp only [if_neg hs]

/-- C1 (amended).  Provided no custom field shadows one of the three derived
flag keys, `to_dict` follows the specified flag policy exactly: a `Completed`
status or an absent due date leaves every flag `False`; otherwise
`is_overdue` iff `due_date < today`, `due_today` iff `due_date == today`,
`due_soon` iff `0 < (due_date - today).days <= 3`; and at most one flag is
true.  (Without the custom-field proviso the policy fails, see
`c1_counterexample`.) -/
theorem c1_flags_policy_amended (t : Task) (today : Date)
    (hvt : validDate today = true)
    (hvd : ∀ d, t.due_date = some d → validDate d = true)
    (hcf : ∀ kv ∈ t.custom_fields,
      ¬ kv.1 = "is_overdue" ∧ ¬ kv.1 = "due_today" ∧ ¬ kv.1 = "due_soon") :
    ((t.status = some "Completed" ∨ t.due_date = none) →
      dictGet (to_dict t today) "is_overdue" = some (.tbool false) ∧
      dictGet (to_dict t today) "due_today" = some (.tbool false) ∧
      dictGet (to_dict t today) "due_soon" = some (.tbool false)) ∧
    (∀ due, t.due_date = some due → ¬ t.status = some "Completed" →
      dictGet (to_dict t today) "is_overdue"
          = some (.tbool (decide (toOrdinal due < toOrdinal today))) ∧
      dictGet (to_dict t today) "due_today" = some (.tbool (decide (due = today))) ∧
      dictGet (to_dict t today) "due_soon"
          = some (.tbool (decide (0 < (toOrdinal due : Int) - (toOrdinal today : Int) ∧
              (toOrdinal due : Int) - (toOrdinal today : Int) ≤ 3)))) ∧
    ((if dictGet (to_dict t today) "is_overdue" = some (.tbool true) then 1 else 0) +
     (if dictGet (to_dict t today) "due_today" = some (.tbool true) then 1 else 0) +
     (if dictGet (to_dict t today) "due_soon" = some (.tbool true) then 1 else 0) ≤ 1) := by
  have hov1 : dictGet (t.custom_fields.foldl (fun d kv => dictSet d kv.1 kv.2)
      (to_dict_base t)) "is_overdue" = some (.tbool false) := by
    rw [dictGet_fold_ne _ _ _ (fun kv hkv => (hcf kv hkv).1)]
    rfl
  have htd1 : dictGet (t.custom_fields.foldl (fun d kv => dictSet d kv.1 kv.2)
      (to_dict_base t)) "due_today" = some (.tbool false) := by
    rw [dictGet_fold_ne _ _ _ (fun kv hkv => (hcf kv hkv).2.1)]
    rfl
  have hds1 : dictGet (t.custom_fields.foldl (fun d kv => dictSet d kv.1 kv.2)
      (to_dict_base t)) "due_soon" = some (.tbool false) := by
    rw [dictGet_fold_ne _ _ _ (fun kv hkv => (hcf kv hkv).2.2)]
    rfl
  have part1 : (t.status = some "Completed" ∨ t.due_date = none) →
      dictGet (to_dict t today) "is_overdue" = some (.tbool false) ∧
      dictGet (to_dict t today) "due_today" = some (.tbool false) ∧
      dictGet (to_dict t today) "due_soon" = some (.tbool false) := by
    intro h
    rw [to_dict_no_flag t today h]
    exact ⟨hov1, htd1, hds1⟩
  have part2 : ∀ due, t.due_date = some due → ¬ t.status = some "Completed" →
      dictGet (to_dict t today) "is_overdue"
          = some (.tbool (decide (toOrdinal due < toOrdinal today))) ∧
      dictGet (to_dict t today) "due_today" = some (.tbool (decide (due = today))) ∧
      dictGet (to_dict t today) "due_soon"
          = some (.tbool (decide (0 < (toOrdinal due : Int) - (toOrdinal today : Int) ∧
              (toOrdinal due : Int) - (toOrdinal today : Int) ≤ 3))) := by
    intro due hdue hs
    rw [to_dict_flag_branch t today due hdue hs]
    by_cases h1 : toOrdinal due < toOrdinal today
    · rw [if_pos h1]
      have e2 : ¬ due = today := by
        intro he
        subst he
        exact absurd h1 (Nat.lt_irrefl _)
      have e3 : ¬ (0 < (toOrdinal due : Int) - (toOrdinal today : Int) ∧
          (toOrdinal due : Int) - (toOrdinal today : Int) ≤ 3) := by
        intro hc
        obtain ⟨hp, -⟩ := hc
        omega
      rw [dictGet_set_self, dictGet_set_ne _ _ (by decide), dictGet_set_ne _ _ (by decide),
        htd1, hds1]
      simp [h1, e2, e3]
      intro hx
      omega
    · rw [if_neg h1]
      by_cases h2 : due = today
      · rw [if_pos h2]
        have e3 : ¬ (0 < (toOrdinal due : Int) - (toOrdinal today : Int) ∧
            (toOrdinal due : Int) - (toOrdinal today : Int) ≤ 3) := by
          intro hc
          obtain ⟨hp, -⟩ := hc
          subst h2
          omega
        rw [dictGet_set_self, dictGet_set_ne _ _ (by decide), dictGet_set_ne _ _ (by decide),
          hov1, hds1]
        simp [h1, h2, e3]
      · rw [if_neg h2]
        have hne : ¬ toOrdinal due = toOrdinal today := by
          intro he
          exact h2 (toOrdinal_inj (hvd due hdue) hvt he)
        by_cases h3 : (toOrdinal due : Int) - (toOrdinal today : Int) ≤ 3
        · rw [if_pos h3]
          have e3 : 0 < (toOrdinal due : Int) - (toOrdinal today : Int) ∧
              (toOrdinal due : Int) - (toOrdinal today : Int) ≤ 3 := by
            constructor
            · omega
            · exact h3
          rw [dictGet_set_self, dictGet_set_ne _ _ (by decide), dictGet_set_ne _ _ (by decide),
            hov1, htd1]
          simp [h1, h2, e3]
        · rw [if_neg h3]
          have e3 : ¬ (0 < (toOrdinal due : Int) - (toOrdinal today : Int) ∧
              (toOrdinal due : Int) - (toOrdinal today : Int) ≤ 3) := by
            intro hc
            exact h3 hc.2
          rw [hov1, htd1, hds1]
          simp [h1, h2, e3]
          intro hx
          omega
  refine ⟨part1, part2, ?_⟩
  rcases hdue : t.due_date with - | due
  · obtain ⟨e1, e2, e3⟩ := part1 (Or.inr hdue)
    rw [e1, e2, e3]
    simp
  · by_cases hs : t.status = some "Completed"
    · obtain ⟨e1, e2, e3⟩ := part1 (Or.inl hs)
      rw [e1, e2, e3]
      simp
    · obtain ⟨e1, e2, e3⟩ := part2 due hdue hs
      rw [e1, e2, e3]
      by_cases h1 : toOrdinal due < toOrdinal today
      · have e2' : ¬ due = today := by
          intro he
          subst he
          exact absurd h1 (Nat.lt_irrefl _)
        have e3' : ¬ (0 < (toOrdinal due : Int) - (toOrdinal today : Int) ∧
            (toOrdinal due : Int) - (toOrdinal today : Int) ≤ 3) := by
          intro hc
          obtain ⟨hp, -⟩ := hc
          omega
        simp [h1, e2', e3']
        intro hx
        omega
      · by_cases h2 : due = today
        · have e3' : ¬ (0 < (toOrdinal due : Int) - (toOrdinal today : Int) ∧
              (toOrdinal due : Int) - (toOrdinal today : Int) ≤ 3) := by
            intro hc
            obtain ⟨hp, -⟩ := hc
            subst h2
            omega
          simp [h1, h2, e3']
        · simp [h1, h2]
          split <;> simp

/-- Task exhibiting the flag-shadowing hole: status `"Completed"` but a
custom field named `is_overdue` carrying `True` (custom column names are
user-configurable, and `edit_task`/`add_task` copy any configured column into
`custom_fields`). -/
def tC1 : Task :=
  { id := "T002", type := none, product := none, module := none,
    description := none, status := some "Completed", priority := none,
    created_date := none, due_date := some ⟨2030, 1, 1⟩, status_update_date := none,
    action_plan_status := none, current_action_plan := none, action_plan_history := none,
    category := none, requester := none, business_unit := none,
    custom_fields := [("is_overdue", .tbool true)] }

/-- C1 counterexample.  The claim says a `"Completed"` task serializes with
`is_overdue` false regardless of anything; but `result.update(custom_fields)`
runs before the flag computation, and for a completed task the flag block is
skipped entirely, so a custom field named `is_overdue` leaks through and the
serialized dictionary reports `is_overdue = True`. -/
theorem c1_counterexample :
    tC1.status = some "Completed" ∧
    dictGet (to_dict tC1 ⟨2025, 1, 1⟩) "is_overdue" = some (.tbool true) :=
  ⟨rfl, rfl⟩

/-- Witness task for C1: in progress, due two days after "today". -/
def tC1w : Task :=
  { id := "T003", type := none, product := none, module := none,
    description := none, status := some "In Progress", priority := none,
    created_date := none, due_date := some ⟨2025, 1, 3⟩, status_update_date := none,
    action_plan_status := none, current_action_plan := none, action_plan_history := none,
    category := none, requester := none, business_unit := none, custom_fields := [] }

/-- Witness for C1 at a concrete task due in two days: `due_soon` is the one
flag set. -/
theorem c1_flags_policy_witness :
    dictGet (to_dict tC1w ⟨2025, 1, 1⟩) "is_overdue" = some (.tbool false) ∧
    dictGet (to_dict tC1w ⟨2025, 1, 1⟩) "due_today" = some (.tbool false) ∧
    dictGet (to_dict tC1w ⟨2025, 1, 1⟩) "due_soon" = some (.tbool true) := by
  have h := c1_flags_policy_amended tC1w ⟨2025, 1, 1⟩ (by decide)
    (by
      intro d hd
      rw [show tC1w.due_date = some ⟨2025, 1, 3⟩ from rfl] at hd
      injection hd with hd
      subst hd
      decide)
    (by
      intro kv hkv
      cases hkv)
  obtain ⟨e1, e2, e3⟩ := h.2.1 ⟨2025, 1, 3⟩ rfl (by decide)
  refine ⟨?_, ?_, ?_⟩
  · rw [e1]
    decide
  · rw [e2]
    decide
  · rw [e3]
    decide

/-! ## Settings store (src/models.py AppSettings, src/app.py 415-459)

JSON values as stored in the `app_settings` table and sent in request
payloads. -/

inductive JVal where
  | jnull
  | jbool (b : Bool)
  | jnum (n : Int)
  | jstr (s : String)
  | jlist (xs : List JVal)
  | jobj (fs : List (String × JVal))

/-- The `app_settings` table (key column is unique) and, equally, a Python
dictionary of JSON values. -/
abbrev Store := List (String × JVal)

/-- Value of key `k` (first — and by uniqueness only — row / binding). -/
def getSetting : Store → String → Option JVal
  | [], _ => none
  | (k', v) :: rest, k => if k' = k then some v else getSetting rest k

/-- `AppSettings.set_setting`: update the row holding `k`, or insert a new
row.  Also the semantics of a Python dictionary write. -/
def set_setting : Store → String → JVal → Store
  | [], k, v => [(k, v)]
  | (k', v') :: rest, k, v =>
    if k' = k then (k', v) :: rest else (k', v') :: set_setting rest k v

theorem getSetting_set_self (st : Store) (k : String) (v : JVal) :
    getSetting (set_setting st k v) k = some v := by
  induction st with
  | nil => simp [set_setting, getSetting]
  | cons p rest ih =>
    obtain ⟨k', v'⟩ := p
    by_cases h : k' = k <;> simp [set_setting, getSetting, h, ih]

theorem getSetting_set_ne (st : Store) {k k2 : String} (v : JVal) (h : ¬ k = k2) :
    getSetting (set_setting st k v) k2 = getSetting st k2 := by
  induction st with
  | nil => simp [set_setting, getSetting, h]
  | cons p rest ih =>
    obtain ⟨ka, va⟩ := p
    by_cases hh : ka = k
    · subst hh
      simp [set_setting, getSetting, h]
    · simp [set_setting, getSetting, hh, ih]

theorem getSetting_append_some {l : Store} {k : String} {v : JVal} (l2 : Store)
    (h : getSetting l k = some v) : getSetting (l ++ l2) k = some v := by
  induction l with
  | nil => cases h
  | cons p rest ih =>
    obtain ⟨k', v'⟩ := p
    rw [List.cons_append]
    by_cases hk : k' = k
    · simpa [getSetting, hk] using h
    · simp only [getSetting, if_neg hk] at h ⊢
      exact ih h

theorem getSetting_none_keys {data : Store} {k : String}
    (h : getSetting data k = none) : ∀ kv ∈ data, ¬ kv.1 = k := by
  induction data with
  | nil => intro kv hkv; cases hkv
  | cons p rest ih =>
    intro kv hkv
    obtain ⟨k', v'⟩ := p
    by_cases hk : k' = k
    · simp [getSetting, hk] at h
    · simp only [getSetting, if_neg hk] at h
      rcases List.mem_cons.mp hkv with rfl | hkv
      · exact hk
      · exact ih h kv hkv

theorem mem_set_setting {st : Store} {k : String} {v : JVal} {kv : String × JVal}
    (h : kv ∈ set_setting st k v) : kv.1 = k ∨ kv ∈ st := by
  induction st with
  | nil =>
    simp [set_setting] at h
    subst h
    exact Or.inl rfl
  | cons p rest ih =>
    obtain ⟨ka, va⟩ := p
    by_cases hk : ka = k
    · subst hk
      simp only [set_setting, if_pos rfl] at h
      rcases List.mem_cons.mp h with rfl | h
      · exact Or.inl rfl
      · exact Or.inr (List.mem_cons_of_mem _ h)
    · simp only [set_setting, if_neg hk] at h
      rcases List.mem_cons.mp h with rfl | h
      · exact Or.inr (List.mem_cons_self _ _)
      · rcases ih h with h | h
        · exact Or.inl h
        · exact Or.inr (List.mem_cons_of_mem _ h)

theorem fold_set_frame (l : Store) (st : Store) (k : String)
    (h : ∀ kv ∈ l, ¬ kv.1 = k) :
    getSetting (l.foldl (fun st kv => set_setting st kv.1 kv.2) st) k = getSetting st k := by
  induction l generalizing st with
  | nil => rfl
  | cons p rest ih =>
    rw [List.foldl_cons, ih _ (fun kv hkv => h kv (List.mem_cons_of_mem _ hkv))]
    exact getSetting_set_ne st p.2 (h p (List.mem_cons_self _ _))

/-- Normalization `save_settings` applies to one custom-column entry: a dict
keeps its `name` (a missing `name` raises `KeyError` = `none`) and gets a
defaulted `type`; anything else becomes `{"name": entry, "type": "text"}`. -/
def normSaveCol : JVal → Option JVal
  | .jobj fs =>
    match getSetting fs "name" with
    | none => none
    | some nm => some (.jobj [("name", nm), ("type", (getSetting fs "type").getD (.jstr "text"))])
  | x => some (.jobj [("name", x), ("type", .jstr "text")])

/-- Left-to-right list normalization, aborting at the first `KeyError` (the
list comprehension in `save_settings`). -/
def mapMOpt (f : JVal → Option JVal) : List JVal → Option (List JVal)
  | [] => some []
  | x :: xs =>
    match f x with
    | none => none
    | some y =>
      match mapMOpt f xs with
      | none => none
      | some ys => some (y :: ys)

/-- `save_settings` (src/app.py 447-459): when `custom_columns` is absent
from `data` it is *inserted* as `[]`; when present and a list it is
normalized in place; otherwise it is left as-is.  Then every key of `data`
is upserted individually via `AppSettings.set_setting`.  A `KeyError` during
normalization (= `none`) aborts before anything is written. -/
def save_settings (data : Store) (store : Store) : Option Store :=
  match getSetting data "custom_columns" with
  | none =>
    some ((data ++ [("custom_columns", JVal.jlist [])]).foldl
      (fun (st : Store) (kv : String × JVal) => set_setting st kv.1 kv.2) store)
  | some (.jlist cols) =>
    match mapMOpt normSaveCol cols with
    | none => none
    | some cols' =>
      some ((set_setting data "custom_columns" (.jlist cols')).foldl
        (fun (st : Store) (kv : String × JVal) => set_setting st kv.1 kv.2) store)
  | some _ =>
    some (data.foldl (fun (st : Store) (kv : String × JVal) => set_setting st kv.1 kv.2) store)

/-- The hard-coded option-list defaults of `load_settings`. -/
def defaultSettings : Store :=
  [("status_options", .jlist [.jstr "Not Started", .jstr "In Progress", .jstr "Completed",
      .jstr "Pending from User", .jstr "On Hold"]),
   ("type_options", .jlist [.jstr "Bug", .jstr "Feature", .jstr "Task"]),
   ("priority_options", .jlist [.jstr "Low", .jstr "Medium", .jstr "High", .jstr "Critical"]),
   ("product_options", .jlist [.jstr "Finance", .jstr "Procurement", .jstr "OIC", .jstr "ROSS",
      .jstr "E-Invoice"]),
   ("module_options", .jlist [.jstr "Authentication", .jstr "Dashboard", .jstr "Reports",
      .jstr "Settings", .jstr "User Management", .jstr "Task Management"])]

/-- The defaults loop of `load_settings`: each missing key is added to the
returned settings dictionary *and* persisted back to the store. -/
def applyDefaults (p : Store × Store) : Store × Store :=
  defaultSettings.foldl
    (fun (q : Store × Store) (kv : String × JVal) =>
      if (getSetting q.1 kv.1).isNone then (q.1 ++ [kv], set_setting q.2 kv.1 kv.2)
      else q) p

/-- Normalization `load_settings` applies to one custom-column entry: bare
strings are coerced to `{name, type: "text"}` records, everything else is
returned unchanged. -/
def normLoadCol : JVal → JVal
  | .jstr s => .jobj [("name", .jstr s), ("type", .jstr "text")]
  | x => x

/-- `load_settings` (src/app.py 415-444): read all rows, merge in the
defaults (persisting missing ones), then ensure `custom_columns`: absent →
`[]` (also persisted); a list → entries coerced in the returned dictionary
only; any other shape → left untouched.  Returns the settings dictionary and
the (possibly updated) store. -/
def load_settings (store : Store) : Store × Store :=
  let p := applyDefaults (store, store)
  match getSetting p.1 "custom_columns" with
  | none =>
    (p.1 ++ [("custom_columns", .jlist [])],
     set_setting p.2 "custom_columns" (.jlist []))
  | some (.jlist cols) =>
    (set_setting p.1 "custom_columns" (.jlist (cols.map normLoadCol)), p.2)
  | some _ => p

/-- Recognizer for the `{name, type}` record shape the spec promises for
every loaded custom-column value. -/
def isNameTypeRec : JVal → Bool
  | .jobj fs => (getSetting fs "name").isSome && (getSetting fs "type").isSome
  | _ => false

/-- Recognizer for "a list of `{name, type}` records". -/
def isNameTypeRecList : JVal → Bool
  | .jlist xs => xs.all isNameTypeRec
  | _ => false

/-- Store holding a configured custom column, used by the C6 counterexample. -/
def c6store : Store :=
  [("custom_columns", .jlist [.jobj [("name", .jstr "Owner"), ("type", .jstr "text")]])]

/-- C6 counterexample.  The claim says keys absent from `data` — "including
custom_columns when not supplied" — are untouched by `save(data)`.  But
`save_settings` *inserts* `custom_columns = []` into `data` when absent and
then upserts it, clobbering the stored column list: saving the empty mapping
resets `custom_columns` from `[{"name": "Owner", "type": "text"}]` to `[]`. -/
theorem c6_counterexample :
    save_settings [] c6store = some [("custom_columns", .jlist [])] ∧
    getSetting c6store "custom_columns"
      = some (.jlist [.jobj [("name", .jstr "Owner"), ("type", .jstr "text")]]) ∧
    ¬ getSetting [("custom_columns", JVal.jlist [])] "custom_columns"
        = getSetting c6store "custom_columns" := by
  refine ⟨rfl, rfl, ?_⟩
  intro h
  simp [getSetting, c6store] at h

/-- C6 (amended).  `save(data)` upserts, at key level, exactly the keys of
`data` plus `custom_columns`: every stored key other than `custom_columns`
that is absent from `data` keeps its value, while `custom_columns`, when
absent from `data`, is reset to `[]` rather than left untouched. -/
theorem c6_save_frame_amended (data store store' : Store)
    (hsave : save_settings data store = some store') :
    (∀ k, ¬ k = "custom_columns" → getSetting data k = none →
      getSetting store' k = getSetting store k) ∧
    (getSetting data "custom_columns" = none →
      getSetting store' "custom_columns" = some (.jlist [])) := by
  unfold save_settings at hsave
  split at hsave
  next hcc =>
    cases hsave
    constructor
    · intro k hk hdata
      apply fold_set_frame
      intro kv hkv
      rcases List.mem_append.mp hkv with hkv | hkv
      · exact getSetting_none_keys hdata kv hkv
      · rcases List.mem_cons.mp hkv with rfl | hkv
        · exact fun he => hk he.symm
        · cases hkv
    · intro hu
      rw [List.foldl_append]
      simp only [List.foldl_cons, List.foldl_nil]
      exact getSetting_set_self _ _ _
  next cols hcc =>
    split at hsave
    · cases hsave
    next cols' hmap =>
      cases hsave
      constructor
      · intro k hk hdata
        apply fold_set_frame
        intro kv hkv
        rcases mem_set_setting hkv with h | h
        · rw [h]
          exact fun he => hk he.symm
        · exact getSetting_none_keys hdata kv h
      · intro hnone
        rw [hcc] at hnone
        cases hnone
  next v hnl hcc =>
    cases hsave
    constructor
    · intro k hk hdata
      exact fold_set_frame _ _ _ (getSetting_none_keys hdata)
    · intro hnone
      rw [hcc] at hnone
      cases hnone

/-- Witness store and its saved form for C6. -/
def c6wStore : Store :=
  [("status_options", .jlist [.jstr "X"]), ("custom_columns", .jlist [])]

/-- Witness for C6: saving `{"theme": "dark"}` leaves the stored
`status_options` untouched and (per the amendment) resets `custom_columns`
to `[]`. -/
theorem c6_save_frame_witness :
    save_settings [("theme", .jstr "dark")] c6wStore
      = some [("status_options", .jlist [.jstr "X"]), ("custom_columns", .jlist []),
          ("theme", .jstr "dark")] ∧
    getSetting [("status_options", JVal.jlist [.jstr "X"]), ("custom_columns", JVal.jlist []),
        ("theme", JVal.jstr "dark")] "status_options"
      = getSetting c6wStore "status_options" ∧
    getSetting [("status_options", JVal.jlist [.jstr "X"]), ("custom_columns", JVal.jlist []),
        ("theme", JVal.jstr "dark")] "custom_columns" = some (.jlist []) := by
  have h := c6_save_frame_amended [("theme", .jstr "dark")] c6wStore
    [("status_options", .jlist [.jstr "X"]), ("custom_columns", .jlist []),
      ("theme", .jstr "dark")] rfl
  exact ⟨rfl, h.1 "status_options" (by decide) rfl, h.2 rfl⟩

theorem mapMOpt_jstr (names : List String) :
    mapMOpt normSaveCol (names.map JVal.jstr)
      = some (names.map (fun s => JVal.jobj [("name", .jstr s), ("type", .jstr "text")])) := by
  induction names with
  | nil => rfl
  | cons a rest ih =>
    simp only [List.map_cons, mapMOpt, normSaveCol, ih]

theorem map_normLoad_records (names : List String) :
    (names.map (fun s => JVal.jobj [("name", .jstr s), ("type", .jstr "text")])).map normLoadCol
      = names.map (fun s => JVal.jobj [("name", .jstr s), ("type", .jstr "text")]) := by
  induction names with
  | nil => rfl
  | cons a rest ih =>
    simp only [List.map_cons, normLoadCol, ih]

theorem fold_defaults_get (ds : List (String × JVal)) (p : Store × Store) (k : String)
    {v : JVal} (h : getSetting p.1 k = some v) :
    getSetting (ds.foldl
      (fun (q : Store × Store) (kv : String × JVal) =>
        if (getSetting q.1 kv.1).isNone then (q.1 ++ [kv], set_setting q.2 kv.1 kv.2)
        else q) p).1 k = some v := by
  induction ds generalizing p with
  | nil => exact h
  | cons d rest ih =>
    rw [List.foldl_cons]
    by_cases hc : (getSetting p.1 d.1).isNone = true
    · rw [if_pos hc]
      exact ih _ (getSetting_append_some _ h)
    · rw [if_neg hc]
      exact ih _ h

/-- C8 (amended).  Saving a `custom_columns` *list* then loading yields the
list of `{name, type}` records: bare-string entries are coerced to
`{"name": s, "type": "text"}` by `save_settings`, and `load_settings`
returns the stored records unchanged.  (A non-list stored shape, by
contrast, is passed through untouched — see `c8_counterexample`.) -/
theorem c8_roundtrip_amended (store store' : Store) (names : List String)
    (hsave : save_settings [("custom_columns", .jlist (names.map JVal.jstr))] store
      = some store') :
    getSetting (load_settings store').1 "custom_columns"
      = some (.jlist (names.map (fun s =>
          JVal.jobj [("name", .jstr s), ("type", .jstr "text")]))) := by
  unfold save_settings at hsave
  rw [show getSetting [("custom_columns", JVal.jlist (names.map JVal.jstr))] "custom_columns"
      = some (JVal.jlist (names.map JVal.jstr)) from rfl] at hsave
  simp only [mapMOpt_jstr] at hsave
  have hstore' : store' = set_setting store "custom_columns"
      (.jlist (names.map (fun s => JVal.jobj [("name", .jstr s), ("type", .jstr "text")]))) :=
    (Option.some.inj hsave).symm.trans rfl
  subst hstore'
  have hget : getSetting (set_setting store "custom_columns"
      (.jlist (names.map (fun s => JVal.jobj [("name", .jstr s), ("type", .jstr "text")]))))
      "custom_columns"
      = some (.jlist (names.map (fun s =>
          JVal.jobj [("name", .jstr s), ("type", .jstr "text")]))) :=
    getSetting_set_self _ _ _
  unfold load_settings applyDefaults
  dsimp only
  rw [fold_defaults_get defaultSettings _ _ hget]
  dsimp only
  rw [map_normLoad_records]
  exact getSetting_set_self _ _ _

/-- C8 counterexample.  The claim says `load()` always returns
`custom_columns` as a list of `{name, type}` records "regardless of stored
shape"; but `save({"custom_columns": "Owner"})` skips normalization (the
value is not a list) and stores the bare string, which `load()` then returns
unchanged — not a list of records. -/
theorem c8_counterexample :
    save_settings [("custom_columns", .jstr "Owner")] []
      = some [("custom_columns", .jstr "Owner")] ∧
    getSetting (load_settings [("custom_columns", .jstr "Owner")]).1 "custom_columns"
      = some (.jstr "Owner") ∧
    isNameTypeRecList (.jstr "Owner") = false :=
  ⟨rfl, rfl, rfl⟩

/-- Witness for C8 at the spec's own example:
`save({"custom_columns": ["Owner"]})` then `load()` gives
`[{"name": "Owner", "type": "text"}]`. -/
theorem c8_roundtrip_witness :
    getSetting (load_settings [("custom_columns",
        JVal.jlist [.jobj [("name", .jstr "Owner"), ("type", .jstr "text")]])]).1
      "custom_columns"
      = some (.jlist [.jobj [("name", .jstr "Owner"), ("type", .jstr "text")]]) :=
  c8_roundtrip_amended []
    [("custom_columns", .jlist [.jobj [("name", .jstr "Owner"), ("type", .jstr "text")]])]
    ["Owner"] rfl

/-! ## Analytics aggregator (src/app.py, analytics, lines 654-747) -/

/-- `task.get(k, default)`: the stored value when the key is present (even if
`None`), else the default. -/
def pyGet (d : List (String × TVal)) (k : String) (dflt : TVal) : TVal :=
  (dictGet d k).getD dflt

/-- Python truthiness of a scalar. -/
def tvalTruthy : TVal → Bool
  | .tnull => false
  | .tbool b => b
  | .tint n => decide (¬ n = 0)
  | .tstr s => decide (¬ s = "")

/-- A dictionary value as an input to `parse_date_flexible`. -/
def toPyInput : TVal → PyInput
  | .tnull => .pnone
  | .tbool b => .pbool b
  | .tint n => .pint n
  | .tstr s => .pstr s

/-- A per-group counter `{'total': ..., 'completed': ...}`. -/
structure DimCount where
  total : Nat
  completed : Nat
deriving DecidableEq

/-- A per-group counter after the completion-rate pass. -/
structure DimStat where
  total : Nat
  completed : Nat
  completion_rate : ℚ
deriving DecidableEq

/-- One grouping step of the analytics loop: create the group on first sight,
then increment `total` (and `completed` for a completed task). -/
def bump (m : List (TVal × DimCount)) (k : TVal) (comp : Bool) : List (TVal × DimCount) :=
  match m with
  | [] => [(k, ⟨1, if comp then 1 else 0⟩)]
  | (k', c) :: rest =>
    if k' = k then (k', ⟨c.total + 1, c.completed + (if comp then 1 else 0)⟩) :: rest
    else (k', c) :: bump rest k comp

/-- One step of the completion-trend bucketing. -/
def bumpTrend (m : List (TVal × Nat)) (k : TVal) : List (TVal × Nat) :=
  match m with
  | [] => [(k, 1)]
  | (k', n) :: rest => if k' = k then (k', n + 1) :: rest else (k', n) :: bumpTrend rest k

/-- The five group maps and the trend map built by the task loop. -/
structure AnaAcc where
  byType : List (TVal × DimCount)
  byCategory : List (TVal × DimCount)
  byProduct : List (TVal × DimCount)
  byModule : List (TVal × DimCount)
  byPriority : List (TVal × DimCount)
  trend : List (TVal × Nat)

/-- `task.get('Status') == 'Completed'`. -/
def taskCompleted (t : List (String × TVal)) : Bool :=
  decide (pyGet t "Status" .tnull = .tstr "Completed")

/-- The body of the `for task in tasks` loop: group under
`task.get(dim, 'Unknown')` for each of the five dimensions, then bucket the
completion trend under `task.get('Created Date', '')` when truthy and
completed. -/
def anaStep (acc : AnaAcc) (t : List (String × TVal)) : AnaAcc :=
  let comp := taskCompleted t
  let acc5 : AnaAcc :=
    { byType := bump acc.byType (pyGet t "Type" (.tstr "Unknown")) comp
      byCategory := bump acc.byCategory (pyGet t "Category" (.tstr "Unknown")) comp
      byProduct := bump acc.byProduct (pyGet t "Product" (.tstr "Unknown")) comp
      byModule := bump acc.byModule (pyGet t "Module" (.tstr "Unknown")) comp
      byPriority := bump acc.byPriority (pyGet t "Priority" (.tstr "Unknown")) comp
      trend := acc.trend }
  let created := pyGet t "Created Date" (.tstr "")
  if tvalTruthy created && comp then { acc5 with trend := bumpTrend acc5.trend created }
  else acc5

/-- Round half to even (Python's `round`), on exact rationals.  Python rounds
the binary double; on the small decimal fractions produced here the exact
rational rounding is the intended reading. -/
def roundHalfEven (x : ℚ) : Int :=
  let f := Rat.floor x
  if x - f < 1 / 2 then f
  else if 1 / 2 < x - f then f + 1
  else if f % 2 = 0 then f else f + 1

/-- Python `round(x, 1)`. -/
def pyRound1 (x : ℚ) : ℚ := (roundHalfEven (x * 10) : ℚ) / 10

/-- The completion-rate pass over one group: guard against division by zero,
else `round(completed / total * 100, 1)`. -/
def rateOf (c : DimCount) : DimStat :=
  ⟨c.total, c.completed,
   if 0 < c.total then pyRound1 ((c.completed : ℚ) / (c.total : ℚ) * 100) else 0⟩

/-- The analytics snapshot rendered by the `/analytics` view. -/
structure Analytics where
  total_tasks : Nat
  completed_tasks : Nat
  in_progress_tasks : Nat
  not_started_tasks : Nat
  on_hold_tasks : Nat
  overdue_tasks : Nat
  tasks_by_type : List (TVal × DimStat)
  tasks_by_category : List (TVal × DimStat)
  tasks_by_product : List (TVal × DimStat)
  tasks_by_module : List (TVal × DimStat)
  tasks_by_priority : List (TVal × DimStat)
  completion_trend : List (TVal × Nat)
  overall_completion_rate : ℚ
  avg_tasks_per_day : ℚ

/-- Tasks with `task.get('Status') ==` the given status. -/
def statusCount (tasks : List (List (String × TVal))) (s : String) : Nat :=
  tasks.countP (fun t => decide (pyGet t "Status" .tnull = .tstr s))

/-- Tasks whose `Created Date` parses to a date on or after `today - 30`
days (`thirty_days_ago`; date comparison by ordinal). -/
def recentCount (tasks : List (List (String × TVal))) (today : Date) : Nat :=
  tasks.countP (fun t =>
    let cd := pyGet t "Created Date" .tnull
    tvalTruthy cd &&
      (match parse_date_flexible (toPyInput cd) with
       | some pd => decide ((toOrdinal pd : Int) ≥ (toOrdinal today : Int) - 30)
       | none => false))

/-- The `/analytics` aggregation: status counts, overdue count, the five
dimension groupings with completion rates, the completion trend, the overall
completion rate (0 on an empty collection) and the trailing-30-day
average-tasks-per-day (0 when no task falls in the window). -/
def analytics (tasks : List (List (String × TVal))) (today : Date) : Analytics :=
  let acc := tasks.foldl anaStep ⟨[], [], [], [], [], []⟩
  let total := tasks.length
  let completed := statusCount tasks "Completed"
  let recent := recentCount tasks today
  { total_tasks := total
    completed_tasks := completed
    in_progress_tasks := statusCount tasks "In Progress"
    not_started_tasks := statusCount tasks "Not Started"
    on_hold_tasks := statusCount tasks "On Hold"
    overdue_tasks := tasks.countP (fun t => tvalTruthy (pyGet t "is_overdue" .tnull))
    tasks_by_type := acc.byType.map (fun p => (p.1, rateOf p.2))
    tasks_by_category := acc.byCategory.map (fun p => (p.1, rateOf p.2))
    tasks_by_product := acc.byProduct.map (fun p => (p.1, rateOf p.2))
    tasks_by_module := acc.byModule.map (fun p => (p.1, rateOf p.2))
    tasks_by_priority := acc.byPriority.map (fun p => (p.1, rateOf p.2))
    completion_trend := acc.trend
    overall_completion_rate :=
      if 0 < total then pyRound1 ((completed : ℚ) / (total : ℚ) * 100) else 0
    avg_tasks_per_day := if 0 < recent then pyRound1 ((recent : ℚ) / 30) else 0 }

/-- Task with no Type (Python `None`), the failing input of C7. -/
def t7 : Task :=
  { id := "T004", type := none, product := none, module := none,
    description := none, status := some "Not Started", priority := none,
    created_date := none, due_date := none, status_update_date := none,
    action_plan_status := none, current_action_plan := none, action_plan_history := none,
    category := none, requester := none, business_unit := none, custom_fields := [] }

/-- C7 (exhibit of the code bug).  `to_dict` always emits the `Type` key —
with value `None` when the column is NULL — so `task.get('Type', 'Unknown')`
returns `None`, never the `'Unknown'` default: a task with a missing Type is
grouped under the Python `None` key and no `"Unknown"` group is created.
The same holds for the other four dimensions (and for the `'Uncategorized'`
default of the standup-metrics grouping). -/
theorem c7_missing_type_groups_under_none :
    dictGet (to_dict t7 ⟨2025, 1, 1⟩) "Type" = some TVal.tnull ∧
    (analytics [to_dict t7 ⟨2025, 1, 1⟩] ⟨2025, 1, 1⟩).tasks_by_type.map Prod.fst
      = [TVal.tnull] ∧
    ((analytics [to_dict t7 ⟨2025, 1, 1⟩] ⟨2025, 1, 1⟩).tasks_by_type.map Prod.fst).contains
      (TVal.tstr "Unknown") = false :=
  ⟨rfl, rfl, rfl⟩

/-- Positivity of all group totals in an accumulator. -/
def accPos (acc : AnaAcc) : Prop :=
  (∀ e ∈ acc.byType, 0 < e.2.total) ∧ (∀ e ∈ acc.byCategory, 0 < e.2.total) ∧
  (∀ e ∈ acc.byProduct, 0 < e.2.total) ∧ (∀ e ∈ acc.byModule, 0 < e.2.total) ∧
  (∀ e ∈ acc.byPriority, 0 < e.2.total)

theorem bump_pos {m : List (TVal × DimCount)} (h : ∀ e ∈ m, 0 < e.2.total)
    (k : TVal) (comp : Bool) : ∀ e ∈ bump m k comp, 0 < e.2.total := by
  induction m with
  | nil =>
    intro e he
    simp only [bump, List.mem_singleton] at he
    subst he
    exact Nat.one_pos
  | cons p rest ih =>
    intro e he
    obtain ⟨k', c⟩ := p
    by_cases hk : k' = k
    · simp only [bump, if_pos hk] at he
      rcases List.mem_cons.mp he with rfl | he
      · exact Nat.succ_pos _
      · exact h e (List.mem_cons_of_mem _ he)
    · simp only [bump, if_neg hk] at he
      rcases List.mem_cons.mp he with rfl | he
      · exact h _ (List.mem_cons_self _ _)
      · exact ih (fun e' he' => h e' (List.mem_cons_of_mem _ he')) e he

theorem anaStep_pos {acc : AnaAcc} (h : accPos acc) (t : List (String × TVal)) :
    accPos (anaStep acc t) := by
  obtain ⟨h1, h2, h3, h4, h5⟩ := h
  unfold anaStep
  dsimp only
  split <;>
    exact ⟨bump_pos h1 _ _, bump_pos h2 _ _, bump_pos h3 _ _, bump_pos h4 _ _, bump_pos h5 _ _⟩

theorem fold_anaStep_pos (tasks : List (List (String × TVal))) :
    accPos (tasks.foldl anaStep ⟨[], [], [], [], [], []⟩) := by
  have key : ∀ acc, accPos acc → accPos (tasks.foldl anaStep acc) := by
    induction tasks with
    | nil => exact fun acc h => h
    | cons t rest ih =>
      intro acc h
      rw [List.foldl_cons]
      exact ih _ (anaStep_pos h t)
  refine key _ ?_
  refine ⟨?_, ?_, ?_, ?_, ?_⟩ <;> (intro e he; cases he)

/-- C9.  Analytics on the empty task collection reports zero totals, zero
overall completion rate and zero average-tasks-per-day, with every division
guarded; and every dimension group has a strictly positive `total` (groups
are only created when a task lands in them), so its `completion_rate` is the
(guarded) formula `round(completed / total * 100, 1)` — the division-by-zero
guard's `0` branch is never taken for an existing group. -/
theorem c9_analytics_guards :
    (∀ today : Date, (analytics [] today).total_tasks = 0 ∧
      (analytics [] today).overall_completion_rate = 0 ∧
      (analytics [] today).avg_tasks_per_day = 0) ∧
    (∀ tasks today, ∀ m ∈ [(analytics tasks today).tasks_by_type,
        (analytics tasks today).tasks_by_category,
        (analytics tasks today).tasks_by_product,
        (analytics tasks today).tasks_by_module,
        (analytics tasks today).tasks_by_priority],
      ∀ e ∈ m, 0 < e.2.total ∧
        e.2.completion_rate = pyRound1 ((e.2.completed : ℚ) / (e.2.total : ℚ) * 100)) := by
  constructor
  · intro today
    exact ⟨rfl, rfl, rfl⟩
  · intro tasks today m hm e he
    obtain ⟨p1, p2, p3, p4, p5⟩ := fold_anaStep_pos tasks
    have hrate : ∀ (l : List (TVal × DimCount)), (∀ e' ∈ l, 0 < e'.2.total) →
        e ∈ l.map (fun p => (p.1, rateOf p.2)) →
        0 < e.2.total ∧
          e.2.completion_rate = pyRound1 ((e.2.completed : ℚ) / (e.2.total : ℚ) * 100) := by
      intro l hl hmem
      obtain ⟨p, hp, rfl⟩ := List.mem_map.mp hmem
      have hpos := hl p hp
      refine ⟨hpos, ?_⟩
      unfold rateOf
      dsimp only
      rw [if_pos hpos]
    simp only [List.mem_cons, List.not_mem_nil, or_false] at hm
    rcases hm with rfl | rfl | rfl | rfl | rfl
    · exact hrate _ p1 he
    · exact hrate _ p2 he
    · exact hrate _ p3 he
    · exact hrate _ p4 he
    · exact hrate _ p5 he

/-- Witness for C9: the single group produced by one in-progress task has
total 1 and completion rate `round(0 / 1 * 100, 1) = 0`. -/
theorem c9_analytics_witness :
    0 < (rateOf ⟨1, 0⟩).total ∧
    (rateOf ⟨1, 0⟩).completion_rate
      = pyRound1 (((rateOf ⟨1, 0⟩).completed : ℚ) / ((rateOf ⟨1, 0⟩).total : ℚ) * 100) :=
  c9_analytics_guards.2 [to_dict tC1w ⟨2025, 1, 1⟩] ⟨2025, 1, 1⟩
    (analytics [to_dict tC1w ⟨2025, 1, 1⟩] ⟨2025, 1, 1⟩).tasks_by_type
    (List.mem_cons_self _ _) (TVal.tnull, rateOf ⟨1, 0⟩) (List.mem_cons_self _ _)

end ProgressPad
